import Mathlib

/-!
Shallow embedding of the analytics core of the Sleep-tracker / Stress & Mood
logger app (a React-Native health-journaling application), together with
proofs about it.

The embedded code lives in
  * `src/services/healthService.ts` and
    `src/screens/tracking/SleepTrackingScreen.tsx` (sleep-duration derivation),
  * `src/services/correlationsService.ts` (Pearson correlation, trend
    analysis, insight generation),
  * the gamification service and the insights service
    (streaks, level/experience, badges, achievements, rule-based insights).

Modelling conventions:
  * JavaScript numbers are embedded as exact rationals; where NaN can reach a
    computation (the sleep-duration parser) numbers are wrapped in `JSNum`,
    which has an explicit NaN that propagates through arithmetic.
  * JavaScript `Date` values for `YYYY-MM-DD` strings are embedded as calendar
    day numbers counted from 0000-01-01 in the proleptic Gregorian calendar.
    The real epoch (1970-01-01) differs by the constant 719528 days; every use
    in the code (ordering, day differences, one-day steps) is invariant under
    that shift.
  * `Array.prototype.sort` (stable in modern JS) is modelled by
    `List.mergeSort`, which is also stable.  The sort happens **in place** in
    JavaScript; for each mutating operation we additionally embed an
    `...ArrayAfter` function giving the contents of the caller's array after
    the call returns.
-/

/-! ### Splitting strings: model of JavaScript `String.prototype.split` with a
single-character separator, over the underlying character list. -/

/-- Model of `s.split(sep)` for a one-character separator: returns the list of
(possibly empty) chunks between occurrences of `sep`.  Total and never returns
an empty list, like the JS original. -/
def splitSep (sep : Char) : List Char → List (List Char)
  | [] => [[]]
  | c :: cs =>
    if c = sep then [] :: splitSep sep cs
    else
      match splitSep sep cs with
      | t :: ts => (c :: t) :: ts
      | [] => [[c]]

/-! ### Decimal digits -/

/-- Numeric value of a decimal digit character. -/
def digitVal (c : Char) : ℕ := c.toNat - 48

/-- Value of a decimal digit string, most significant digit first. -/
def foldVal (l : List Char) : ℕ := l.foldl (fun a c => 10 * a + digitVal c) 0

/-- Parse a nonempty all-digit character list to its value, `none` otherwise.
This is the decimal fragment of JavaScript string-to-number conversion; it is
all the analytics code ever feeds it (chunks of `"HH:MM"` / `"YYYY-MM-DD"`). -/
def digitsToNat? (l : List Char) : Option ℕ :=
  if !l.isEmpty && l.all Char.isDigit then some (foldVal l) else none

/-- Fuel-driven decimal-digit worker (structural recursion so that concrete
dates evaluate inside the kernel); `natDigits` supplies enough fuel. -/
def natDigitsAux : ℕ → ℕ → List Char
  | 0, _ => []
  | fuel + 1, n =>
    if n < 10 then [Nat.digitChar n]
    else natDigitsAux fuel (n / 10) ++ [Nat.digitChar (n % 10)]

/-- Decimal digit characters of `n`, most significant first. -/
def natDigits (n : ℕ) : List Char := natDigitsAux (n + 1) n

/-- Decimal digits of `n` left-padded with `'0'` to width `w` (wider numbers
are kept whole). -/
def padDigits (w n : ℕ) : List Char :=
  List.replicate (w - (natDigits n).length) '0' ++ natDigits n

/-! ### The proleptic Gregorian calendar, as used by JavaScript `Date` for
`YYYY-MM-DD` strings (which are parsed as UTC calendar dates). -/

/-- Gregorian leap-year rule. -/
def isLeap (y : ℕ) : Bool := y % 4 == 0 && (y % 100 != 0 || y % 400 == 0)

/-- Number of days in year `y`. -/
def daysInYear (y : ℕ) : ℕ := if isLeap y then 366 else 365

/-- Number of days in month `m` (1-based) of year `y`. -/
def daysInMonth (y m : ℕ) : ℕ :=
  if m = 2 then (if isLeap y then 29 else 28)
  else if m = 4 ∨ m = 6 ∨ m = 9 ∨ m = 11 then 30 else 31

/-- Days from 0000-01-01 up to (excluding) year `y`-01-01. -/
def daysBeforeYear : ℕ → ℕ
  | 0 => 0
  | y + 1 => daysBeforeYear y + daysInYear y

/-- Days of year `y` strictly before the first of month `m` (1-based). -/
def daysBeforeMonth (y : ℕ) : ℕ → ℕ
  | 0 => 0
  | 1 => 0
  | m + 2 => daysBeforeMonth y (m + 1) + daysInMonth y (m + 1)

/-- Day number (days since 0000-01-01) of the calendar date `y-m-d`. -/
def dayNumber (y m d : ℕ) : ℕ := daysBeforeYear y + daysBeforeMonth y m + (d - 1)

/-- Fuel-driven year-peeling worker (structural recursion so that concrete
dates evaluate inside the kernel); `splitYear` supplies enough fuel, since
every step removes at least 365 days. -/
def splitYearAux : ℕ → ℕ → ℕ → ℕ × ℕ
  | 0, y, d => (y, d)
  | fuel + 1, y, d =>
    if d < daysInYear y then (y, d) else splitYearAux fuel (y + 1) (d - daysInYear y)

/-- Peel whole years off a day count, starting at year `y`: returns the year
the day falls in and the day-of-year remainder. -/
def splitYear (y d : ℕ) : ℕ × ℕ := splitYearAux (d + 1) y d

/-- Fuel-driven month-peeling worker; `splitMonth` supplies enough fuel, since
every step removes at least 28 days. -/
def splitMonthAux : ℕ → ℕ → ℕ → ℕ → ℕ × ℕ
  | 0, _, m, doy => (m, doy)
  | fuel + 1, y, m, doy =>
    if doy < daysInMonth y m then (m, doy)
    else splitMonthAux fuel y (m + 1) (doy - daysInMonth y m)

/-- Peel whole months off a day-of-year count, starting at month `m`: returns
the month the day falls in and the day-of-month remainder (0-based). -/
def splitMonth (y m doy : ℕ) : ℕ × ℕ := splitMonthAux (doy + 1) y m doy

/-- Calendar date `(y, m, d)` (months and days 1-based) of a day number. -/
def civilFromDayNumber (d : ℕ) : ℕ × ℕ × ℕ :=
  let yp := splitYear 0 d
  let mp := splitMonth yp.1 1 yp.2
  (yp.1, mp.1, mp.2 + 1)

/-- Model of `date.toISOString().split('T')[0]` as a function of the date's
day number.  For years 0..9999 this is the plain `YYYY-MM-DD` form (month and
day zero-padded to width 2, year to width 4).  Outside that range JavaScript
uses the expanded `±YYYYYY-MM-DD` form; we embed it with its leading sign
character, which is all that matters: such a string can never equal a stored
plain date string. -/
def formatDate (d : ℤ) : String :=
  if 0 ≤ d then
    let c := civilFromDayNumber d.toNat
    if c.1 ≤ 9999 then
      String.mk (padDigits 4 c.1 ++ '-' :: padDigits 2 c.2.1 ++ '-' :: padDigits 2 c.2.2)
    else
      String.mk ('+' :: natDigits c.1 ++ '-' :: padDigits 2 c.2.1 ++ '-' :: padDigits 2 c.2.2)
  else String.mk ('-' :: natDigits (-d).toNat)

/-- Model of `new Date(s).getTime()` for date strings, as a day number
(see the module comment for the epoch shift): split on `'-'`, read the three
components as decimal numbers, check they form a valid calendar date, else
`none` (JavaScript `Invalid Date`, whose time value is NaN). -/
def parseDate (s : String) : Option ℕ :=
  match (splitSep '-' s.data).map digitsToNat? with
  | [some y, some m, some d] =>
    if 1 ≤ m ∧ m ≤ 12 ∧ 1 ≤ d ∧ d ≤ daysInMonth y m then some (dayNumber y m d) else none
  | _ => none

/-- A canonical well-formed `YYYY-MM-DD` date string: three all-digit
components of widths 4, 2, 2 denoting a valid Gregorian calendar date. -/
def wellFormedDate (s : String) : Bool :=
  match splitSep '-' s.data with
  | [ys, ms, ds] =>
    ys.length == 4 && ms.length == 2 && ds.length == 2 &&
    ys.all Char.isDigit && ms.all Char.isDigit && ds.all Char.isDigit &&
    decide (1 ≤ foldVal ms) && decide (foldVal ms ≤ 12) &&
    decide (1 ≤ foldVal ds) && decide (foldVal ds ≤ daysInMonth (foldVal ys) (foldVal ms))
  | _ => false

/-- Sort key used by the date comparators (`new Date(s).getTime()`), with the
NaN of an invalid date collapsed to 0: a NaN comparator result makes the JS
sort treat the pair as equal, and no verified claim sorts invalid dates. -/
def dv (s : String) : ℕ := (parseDate s).getD 0

/-- Model of `Math.floor((new Date(a) - new Date(b)) / 86400000)`: the day
difference of two parseable date strings, `none` when either side is an
invalid date (NaN propagates and every comparison with it is false). -/
def daysDiff (a b : String) : Option ℤ :=
  match parseDate a, parseDate b with
  | some x, some y => some ((x : ℤ) - y)
  | _, _ => none

/-! ### JavaScript numbers with NaN, and the sleep-duration derivation -/

/-- JavaScript number as it arises in the sleep-duration code: an exact
rational or NaN. -/
inductive JSNum where
  | nan : JSNum
  | num : ℚ → JSNum
deriving DecidableEq

/-- NaN-propagating addition. -/
def JSNum.add : JSNum → JSNum → JSNum
  | .num a, .num b => .num (a + b)
  | _, _ => .nan

/-- NaN-propagating subtraction. -/
def JSNum.sub : JSNum → JSNum → JSNum
  | .num a, .num b => .num (a - b)
  | _, _ => .nan

/-- NaN-propagating multiplication. -/
def JSNum.mul : JSNum → JSNum → JSNum
  | .num a, .num b => .num (a * b)
  | _, _ => .nan

/-- JavaScript `<`: every comparison involving NaN is false. -/
def JSNum.ltb : JSNum → JSNum → Bool
  | .num a, .num b => decide (a < b)
  | _, _ => false

/-- Division by a nonzero rational constant (the code only divides by 60). -/
def JSNum.divQ : JSNum → ℚ → JSNum
  | .num a, c => .num (a / c)
  | .nan, _ => .nan

instance : Add JSNum := ⟨JSNum.add⟩

instance : Sub JSNum := ⟨JSNum.sub⟩

instance : Mul JSNum := ⟨JSNum.mul⟩

/-- Model of `Math.round(q * 100) / 100` (round to 2 decimals; `Math.round`
rounds half toward positive infinity), NaN-propagating. -/
def JSNum.round2 : JSNum → JSNum
  | .num q => .num ((⌊q * 100 + 1 / 2⌋ : ℚ) / 100)
  | .nan => .nan

/-- JavaScript numeric conversion of one chunk of a split time string: the
empty string converts to 0, a nonempty digit string to its value, anything
else to NaN.  (Full JS `Number` also accepts signs, decimals and whitespace;
those never occur in stored `HH:MM` strings and no claim depends on them.) -/
def jsNumberChunk (p : List Char) : JSNum :=
  if p.isEmpty then .num 0
  else match digitsToNat? p with
    | some n => .num n
    | none => .nan

/-- Component `i` of `s.split(':').map(Number)`.  A missing component is
`undefined` in JS; the arithmetic it immediately flows into yields NaN, so it
is embedded as NaN directly. -/
def timePart (s : String) (i : ℕ) : JSNum :=
  match (splitSep ':' s.data)[i]? with
  | some p => jsNumberChunk p
  | none => .nan

/-- A well-formed `HH:MM` time string: two nonempty all-digit components with
hour < 24 and minute < 60. -/
def wellFormedTime (s : String) : Bool :=
  match splitSep ':' s.data with
  | [h, m] =>
    !h.isEmpty && h.all Char.isDigit && !m.isEmpty && m.all Char.isDigit &&
    decide (foldVal h < 24) && decide (foldVal m < 60)
  | _ => false

namespace HealthService

/-- `HealthService.calculateSleepDuration`
(`src/services/healthService.ts`, lines 61-75): convert `HH:MM` start/end to
minutes, add 1440 minutes when the end is before the start (overnight sleep),
return the difference in hours.  There is no validation: a malformed chunk
becomes NaN and propagates. -/
def calculateSleepDuration (startTime endTime : String) : JSNum :=
  let startHour := timePart startTime 0
  let startMin := timePart startTime 1
  let endHour := timePart endTime 0
  let endMin := timePart endTime 1
  let startMinutes := startHour * JSNum.num 60 + startMin
  let endMinutes0 := endHour * JSNum.num 60 + endMin
  let endMinutes :=
    if endMinutes0.ltb startMinutes then endMinutes0 + JSNum.num 1440 else endMinutes0
  (endMinutes - startMinutes).divQ 60

end HealthService

namespace SleepTrackingScreen

/-- `calculateSleepDuration` in
`src/screens/tracking/SleepTrackingScreen.tsx`, lines 70-84: same computation
as the service version, with the final hours value rounded to 2 decimals. -/
def calculateSleepDuration (start end_ : String) : JSNum :=
  let startHour := timePart start 0
  let startMin := timePart start 1
  let endHour := timePart end_ 0
  let endMin := timePart end_ 1
  let startMinutes := startHour * JSNum.num 60 + startMin
  let endMinutes0 := endHour * JSNum.num 60 + endMin
  let endMinutes :=
    if endMinutes0.ltb startMinutes then endMinutes0 + JSNum.num 1440 else endMinutes0
  ((endMinutes - startMinutes).divQ 60).round2

end SleepTrackingScreen

/-! ### The health-entry data model (`src/types/index.ts`, `HealthEntrySchema`) -/

/-- Sleep block of a daily entry (`SleepData`). -/
structure SleepData where
  start_time : String
  end_time : String
  duration_hours : ℚ
  quality_score : ℚ
deriving DecidableEq

/-- Mood block of a daily entry (`MoodData`). -/
structure MoodData where
  mood_score : ℚ
  stress_score : ℚ
  journal_entry : String
  voice_note_path : Option String
deriving DecidableEq

/-- Symptom block of a daily entry (`SymptomData`). -/
structure SymptomData where
  gi_flare : ℚ
  skin_flare : ℚ
  migraine : ℚ
deriving DecidableEq

/-- One day's combined health record (`HealthEntrySchema`): the shape the
whole analytics core consumes. -/
structure HealthEntrySchema where
  date : String
  sleep : SleepData
  mood : MoodData
  symptoms : SymptomData
deriving DecidableEq

/-! ### Decimal display helpers (JavaScript `toFixed`) -/

/-- Model of `q.toFixed(dp)`: fixed-point decimal rendering, rounding half
away from zero.  (On binary doubles JS resolves exact ties by the stored
binary value; no verified claim inspects a rendered string, so the exact-tie
convention is immaterial.) -/
def toFixed (dp : ℕ) (q : ℚ) : String :=
  let scaled : ℕ := (⌊|q| * (10 : ℚ) ^ dp + 1 / 2⌋).toNat
  let whole := scaled / 10 ^ dp
  let frac := scaled % 10 ^ dp
  (if q < 0 ∧ 0 < scaled then "-" else "") ++
    String.mk (natDigits whole) ++
    (if dp = 0 then "" else "." ++ String.mk (padDigits dp frac))

/-- Decimal rendering of `Math.sqrt(v).toFixed(1)` for `v ≥ 0`, via an integer
square-root approximation.  Only ever used to build a display string that no
verified claim inspects. -/
def sqrtToFixed1 (v : ℚ) : String :=
  toFixed 1 ((Nat.sqrt (⌊v * 100⌋.toNat) : ℚ) / 10)

namespace CorrelationsService

/-- Numerator `n*sumXY - sumX*sumY` of the Pearson formula in
`calculateCorrelation` (`src/services/correlationsService.ts`, lines 45-59). -/
def corrNum (x y : List ℚ) : ℚ :=
  let n : ℚ := x.length
  n * (((x.zip y).map fun p => p.1 * p.2).sum) - x.sum * y.sum

/-- Square of the Pearson denominator: the product
`(n*sumX2 - sumX^2) * (n*sumY2 - sumY^2)` whose square root the source
divides by. -/
def corrDenomSq (x y : List ℚ) : ℚ :=
  let n : ℚ := x.length
  (n * ((x.map fun v => v * v).sum) - x.sum * x.sum) *
    (n * ((y.map fun v => v * v).sum) - y.sum * y.sum)

/-- `CorrelationsService.calculateCorrelation`
(`src/services/correlationsService.ts`, lines 45-59).  The source returns
`numerator / Math.sqrt(denomSq)` after the guards
`x.length !== y.length || x.length === 0` and `denominator === 0`.  Since the
square root is irrational in general, this embedding returns
`numerator / denomSq` instead: because `denomSq ≥ 0` always (proved below),
`Math.sqrt(denomSq) = 0` exactly when `denomSq = 0`, so the guard and the zero
set are embedded exactly, and the sign of the nonzero values agrees with the
source.  Downstream magnitude thresholds (`|r| > 0.2` etc.) are therefore
exact only up to this rescaling; no verified claim depends on them. -/
def calculateCorrelation (x y : List ℚ) : ℚ :=
  if x.length ≠ y.length ∨ x.length = 0 then 0
  else if corrDenomSq x y = 0 then 0
  else corrNum x y / corrDenomSq x y

/-- `CorrelationsService.calculateSignificance`
(`src/services/correlationsService.ts`, lines 64-75).  The source compares
`t = |c| * Math.sqrt((n-2)/(1-c^2))` against 2.576 / 1.96 / 1.645.  Since
`t ≥ 0` and the thresholds are positive, `t > θ ↔ t^2 > θ^2`, and
`t^2 = c^2*(n-2)/(1-c^2)` is rational, so the buckets are embedded exactly.
When `c^2 = 1` the source computes `sqrt((n-2)/0) = Infinity`, hence bucket
0.01; when `c^2 > 1` (possible for the slope argument) it computes the square
root of a negative number, hence `t = NaN`, every comparison is false and the
result is 0.2. -/
def calculateSignificance (c : ℚ) (sampleSize : ℕ) : ℚ :=
  if sampleSize < 3 then 1
  else if c * c = 1 then 0.01
  else if c * c > 1 then 0.2
  else
    let tSq := c * c * ((sampleSize : ℚ) - 2) / (1 - c * c)
    if tSq > 2.576 ^ 2 then 0.01
    else if tSq > 1.96 ^ 2 then 0.05
    else if tSq > 1.645 ^ 2 then 0.1
    else 0.2

/-- `CorrelationsService.getCorrelationStrength`
(`src/services/correlationsService.ts`, lines 80-92): strength bucket and
description for a correlation value. -/
def getCorrelationStrength (c : ℚ) : String × String :=
  if |c| ≥ 0.7 then ("strong", "Very strong relationship")
  else if |c| ≥ 0.5 then ("moderate", "Moderate relationship")
  else if |c| ≥ 0.3 then ("weak", "Weak relationship")
  else ("weak", "Very weak or no relationship")

/-- Result record of `analyzeSleepCorrelations` (`SleepCorrelation`). -/
structure SleepCorrelation where
  sleepMetric : String
  symptomMetric : String
  correlation : ℚ
  strength : String
  description : String
  actionableInsight : String
deriving DecidableEq

/-- Builder for one pushed `SleepCorrelation` record (shared shape of the
eight pushes in `analyzeSleepCorrelations`). -/
def corrItem (sleepM sympM : String) (c : ℚ) (desc insight : String) : SleepCorrelation :=
  { sleepMetric := sleepM, symptomMetric := sympM, correlation := c,
    strength := (getCorrelationStrength c).1, description := desc,
    actionableInsight := insight }

/-- `CorrelationsService.analyzeSleepCorrelations`
(`src/services/correlationsService.ts`, lines 97-227): pairwise correlations
of sleep/mood/stress metrics against symptom metrics, kept when `|r| > 0.2`,
sorted descending by `|r|`. -/
def analyzeSleepCorrelations (entries : List HealthEntrySchema) : List SleepCorrelation :=
  if entries.length < 3 then []
  else
    let sleepDuration := entries.map fun e => e.sleep.duration_hours
    let sleepQuality := entries.map fun e => e.sleep.quality_score
    let giFlare := entries.map fun e => e.symptoms.gi_flare
    let skinFlare := entries.map fun e => e.symptoms.skin_flare
    let migraine := entries.map fun e => e.symptoms.migraine
    let mood := entries.map fun e => e.mood.mood_score
    let stress := entries.map fun e => e.mood.stress_score
    let durationGiCorr := calculateCorrelation sleepDuration giFlare
    let durationSkinCorr := calculateCorrelation sleepDuration skinFlare
    let durationMigraineCorr := calculateCorrelation sleepDuration migraine
    let qualityGiCorr := calculateCorrelation sleepQuality giFlare
    let qualitySkinCorr := calculateCorrelation sleepQuality skinFlare
    let qualityMigraineCorr := calculateCorrelation sleepQuality migraine
    let moodGiCorr := calculateCorrelation mood giFlare
    let stressGiCorr := calculateCorrelation stress giFlare
    let correlations :=
      (if |durationGiCorr| > 0.2 then
        [corrItem "Sleep Duration" "GI Flare" durationGiCorr
          ("Sleep duration " ++ (if durationGiCorr < 0 then "negatively" else "positively") ++
            " correlates with GI flare severity")
          (if durationGiCorr < 0 then
            "Shorter sleep may increase GI symptoms. Aim for 7-9 hours of sleep."
          else "Longer sleep may help reduce GI symptoms.")]
      else []) ++
      (if |durationSkinCorr| > 0.2 then
        [corrItem "Sleep Duration" "Skin Flare" durationSkinCorr
          ("Sleep duration " ++ (if durationSkinCorr < 0 then "negatively" else "positively") ++
            " correlates with skin flare severity")
          (if durationSkinCorr < 0 then
            "Insufficient sleep may trigger skin flares. Maintain consistent sleep schedule."
          else "Adequate sleep may help prevent skin flares.")]
      else []) ++
      (if |durationMigraineCorr| > 0.2 then
        [corrItem "Sleep Duration" "Migraine" durationMigraineCorr
          ("Sleep duration " ++ (if durationMigraineCorr < 0 then "negatively" else "positively") ++
            " correlates with migraine severity")
          (if durationMigraineCorr < 0 then
            "Poor sleep may trigger migraines. Focus on sleep hygiene."
          else "Good sleep may help prevent migraines.")]
      else []) ++
      (if |qualityGiCorr| > 0.2 then
        [corrItem "Sleep Quality" "GI Flare" qualityGiCorr
          ("Sleep quality " ++ (if qualityGiCorr < 0 then "negatively" else "positively") ++
            " correlates with GI flare severity")
          (if qualityGiCorr < 0 then
            "Poor sleep quality may worsen GI symptoms. Improve sleep environment."
          else "Better sleep quality may reduce GI symptoms.")]
      else []) ++
      (if |qualitySkinCorr| > 0.2 then
        [corrItem "Sleep Quality" "Skin Flare" qualitySkinCorr
          ("Sleep quality " ++ (if qualitySkinCorr < 0 then "negatively" else "positively") ++
            " correlates with skin flare severity")
          (if qualitySkinCorr < 0 then
            "Poor sleep quality may trigger skin flares. Consider sleep aids or environment changes."
          else "Good sleep quality may help prevent skin flares.")]
      else []) ++
      (if |qualityMigraineCorr| > 0.2 then
        [corrItem "Sleep Quality" "Migraine" qualityMigraineCorr
          ("Sleep quality " ++ (if qualityMigraineCorr < 0 then "negatively" else "positively") ++
            " correlates with migraine severity")
          (if qualityMigraineCorr < 0 then
            "Poor sleep quality may trigger migraines. Focus on deep sleep."
          else "Good sleep quality may help prevent migraines.")]
      else []) ++
      (if |moodGiCorr| > 0.2 then
        [corrItem "Mood" "GI Flare" moodGiCorr
          ("Mood " ++ (if moodGiCorr < 0 then "negatively" else "positively") ++
            " correlates with GI flare severity")
          (if moodGiCorr < 0 then
            "Low mood may worsen GI symptoms. Consider stress management techniques."
          else "Positive mood may help reduce GI symptoms.")]
      else []) ++
      (if |stressGiCorr| > 0.2 then
        [corrItem "Stress" "GI Flare" stressGiCorr
          ("Stress " ++ (if stressGiCorr < 0 then "negatively" else "positively") ++
            " correlates with GI flare severity")
          (if stressGiCorr > 0 then
            "High stress may increase GI symptoms. Practice relaxation techniques."
          else "Low stress may help reduce GI symptoms.")]
      else [])
    correlations.mergeSort fun a b => decide (|b.correlation| ≤ |a.correlation|)

end CorrelationsService

namespace CorrelationsService

/-- Trend direction of `TrendAnalysis` (`'increasing' | 'decreasing' | 'stable'`). -/
inductive TrendDir where
  | increasing : TrendDir
  | decreasing : TrendDir
  | stable : TrendDir
deriving DecidableEq

/-- String value of a trend direction as it appears in the source records. -/
def trendDirStr : TrendDir → String
  | .increasing => "increasing"
  | .decreasing => "decreasing"
  | .stable => "stable"

/-- Result record of `analyzeTrends` (`TrendAnalysis`). -/
structure TrendAnalysis where
  metric : String
  trend : TrendDir
  changeRate : ℚ
  period : String
  significance : ℚ
deriving DecidableEq

/-- Metric selector switch inside `analyzeTrends`
(`src/services/correlationsService.ts`, lines 236-247). -/
def metricValue (metric : String) (e : HealthEntrySchema) : ℚ :=
  if metric = "sleep_duration" then e.sleep.duration_hours
  else if metric = "sleep_quality" then e.sleep.quality_score
  else if metric = "mood" then e.mood.mood_score
  else if metric = "stress" then e.mood.stress_score
  else if metric = "gi_flare" then e.symptoms.gi_flare
  else if metric = "skin_flare" then e.symptoms.skin_flare
  else if metric = "migraine" then e.symptoms.migraine
  else 0

/-- The value series `entries.slice(-days).map(...)` examined by
`analyzeTrends`. -/
def trendValues (entries : List HealthEntrySchema) (metric : String) (days : ℕ) : List ℚ :=
  (entries.drop (entries.length - days)).map (metricValue metric)

/-- Least-squares slope over index positions `0..n-1` exactly as computed in
`analyzeTrends` (`src/services/correlationsService.ts`, lines 252-259). -/
def slopeOf (values : List ℚ) : ℚ :=
  let n : ℚ := values.length
  let xs := (List.range values.length).map (Nat.cast : ℕ → ℚ)
  let sumX := xs.sum
  let sumY := values.sum
  let sumXY := ((xs.zip values).map fun p => p.1 * p.2).sum
  let sumX2 := (xs.map fun v => v * v).sum
  (n * sumXY - sumX * sumY) / (n * sumX2 - sumX * sumX)

/-- The signed `changeRate` expression `(slope / (sumY / n)) * 100` of
`analyzeTrends` (line 260).  When the mean `sumY / n` is zero JavaScript
produces NaN (or ±Infinity) here; rational division by zero yields 0 instead,
so claims about the change rate carry a nonzero-mean hypothesis. -/
def changeRateOf (values : List ℚ) : ℚ :=
  (slopeOf values / (values.sum / (values.length : ℚ))) * 100

/-- Modelled from the spec (for comparison with the code's `changeRateOf`):
the signed change rate "slope / mean(values) × 100", with the least-squares
slope written in its textbook closed form over index positions `0..n-1` as
`Finset.range` sums. -/
def specSignedRate (values : List ℚ) : ℚ :=
  ((((values.length : ℚ)) * (∑ i ∈ Finset.range values.length, (i : ℚ) * values.getD i 0) -
      (∑ i ∈ Finset.range values.length, (i : ℚ)) * values.sum) /
    (((values.length : ℚ)) * (∑ i ∈ Finset.range values.length, (i : ℚ) * (i : ℚ)) -
      (∑ i ∈ Finset.range values.length, (i : ℚ)) *
        (∑ i ∈ Finset.range values.length, (i : ℚ)))) /
    (values.sum / (values.length : ℚ)) * 100

/-- `CorrelationsService.analyzeTrends`
(`src/services/correlationsService.ts`, lines 232-278).  Note that the
returned record stores `Math.abs(changeRate)` while the direction is
classified on the signed value. -/
def analyzeTrends (entries : List HealthEntrySchema) (metric : String) (days : ℕ) :
    Option TrendAnalysis :=
  if entries.length < 3 then none
  else
    let values := trendValues entries metric days
    if values.length < 2 then none
    else
      let changeRate := changeRateOf values
      let trend : TrendDir :=
        if |changeRate| < 5 then .stable
        else if changeRate > 0 then .increasing
        else .decreasing
      some { metric := metric, trend := trend, changeRate := |changeRate|,
             period := toString days ++ " days",
             significance := calculateSignificance |slopeOf values| values.length }

/-- Insight record emitted by `CorrelationsService.generateInsights`
(`HealthInsight`).  The untyped `data` payload of the source record is not
modelled. -/
structure HealthInsight where
  type : String
  title : String
  description : String
  confidence : ℚ
  actionable : Bool
  recommendation : Option String
deriving DecidableEq

/-- The single "Need More Data" insight pushed when fewer than 7 entries are
available (`src/services/correlationsService.ts`, lines 286-297). -/
def needMoreDataInsight : HealthInsight :=
  { type := "pattern", title := "Need More Data",
    description :=
      "Track your health data for at least a week to see meaningful patterns and correlations.",
    confidence := 1, actionable := true,
    recommendation := some "Continue logging daily to unlock personalized insights." }

/-- `CorrelationsService.getTrendRecommendation`
(`src/services/correlationsService.ts`, lines 414-454): static lookup table
keyed by metric and direction, with a catch-all default. -/
def getTrendRecommendation (metric trend : String) : String :=
  if metric = "sleep_duration" then
    if trend = "increasing" then "Great! You\x27re getting more sleep. Continue this positive trend."
    else if trend = "decreasing" then
      "Your sleep duration is declining. Consider earlier bedtimes or better sleep hygiene."
    else if trend = "stable" then "Your sleep duration is consistent. Maintain this healthy pattern."
    else "Continue monitoring this metric for better insights."
  else if metric = "sleep_quality" then
    if trend = "increasing" then "Excellent! Your sleep quality is improving. Keep up the good habits."
    else if trend = "decreasing" then
      "Your sleep quality is declining. Check your sleep environment and routine."
    else if trend = "stable" then "Your sleep quality is stable. Consider ways to optimize further."
    else "Continue monitoring this metric for better insights."
  else if metric = "mood" then
    if trend = "increasing" then "Your mood is improving! Continue activities that boost your wellbeing."
    else if trend = "decreasing" then
      "Your mood is declining. Consider stress management and self-care activities."
    else if trend = "stable" then
      "Your mood is stable. Look for opportunities to enhance your daily happiness."
    else "Continue monitoring this metric for better insights."
  else if metric = "stress" then
    if trend = "increasing" then
      "Your stress levels are rising. Consider relaxation techniques and time management."
    else if trend = "decreasing" then
      "Great job managing stress! Continue your stress-reduction strategies."
    else if trend = "stable" then "Your stress levels are stable. Consider proactive stress management."
    else "Continue monitoring this metric for better insights."
  else if metric = "gi_flare" then
    if trend = "increasing" then "GI symptoms are worsening. Review your diet and stress management."
    else if trend = "decreasing" then "Your GI symptoms are improving! Continue your current approach."
    else if trend = "stable" then "GI symptoms are stable. Consider dietary or lifestyle optimizations."
    else "Continue monitoring this metric for better insights."
  else if metric = "skin_flare" then
    if trend = "increasing" then
      "Skin flares are increasing. Check triggers like stress, diet, or environment."
    else if trend = "decreasing" then "Your skin is improving! Continue your current skincare routine."
    else if trend = "stable" then "Skin condition is stable. Consider preventive measures."
    else "Continue monitoring this metric for better insights."
  else if metric = "migraine" then
    if trend = "increasing" then
      "Migraines are becoming more frequent. Track triggers and consider prevention."
    else if trend = "decreasing" then
      "Migraines are decreasing! Continue your current management approach."
    else if trend = "stable" then
      "Migraine frequency is stable. Focus on trigger identification and prevention."
    else "Continue monitoring this metric for better insights."
  else "Continue monitoring this metric for better insights."

/-- `CorrelationsService.analyzeSleepPatterns`
(`src/services/correlationsService.ts`, lines 353-409): irregular-schedule,
sleep-debt and quality/duration-mismatch pattern insights.  The irregular
check `stdDev > 1.5` is embedded as the exact equivalent
`variance > 1.5^2`. -/
def analyzeSleepPatterns (entries : List HealthEntrySchema) : List HealthInsight :=
  if entries.length < 7 then []
  else
    let sleepDurations := entries.map fun e => e.sleep.duration_hours
    let sleepQualities := entries.map fun e => e.sleep.quality_score
    let avgDuration := sleepDurations.sum / (sleepDurations.length : ℚ)
    let durationVariance :=
      ((sleepDurations.map fun d => (d - avgDuration) ^ 2).sum) / (sleepDurations.length : ℚ)
    let irregular : List HealthInsight :=
      if durationVariance > 1.5 ^ 2 then
        [{ type := "pattern", title := "Irregular Sleep Schedule",
           description := "Your sleep duration varies significantly (" ++
             sqrtToFixed1 durationVariance ++ " hours standard deviation).",
           confidence := 0.8, actionable := true,
           recommendation :=
             some "Try to maintain a consistent bedtime and wake time, even on weekends." }]
      else []
    let shortSleepDays : ℕ := (sleepDurations.filter fun d => d < 6).length
    let sleepDebtRatio : ℚ := (shortSleepDays : ℚ) / (sleepDurations.length : ℚ)
    let debt : List HealthInsight :=
      if sleepDebtRatio > 0.3 then
        [{ type := "pattern", title := "Frequent Sleep Deprivation",
           description := "You\x27re getting less than 6 hours of sleep " ++
             toFixed 0 (sleepDebtRatio * 100) ++ "% of the time.",
           confidence := 0.9, actionable := true,
           recommendation :=
             some "Prioritize getting 7-9 hours of sleep nightly. Consider adjusting your schedule." }]
      else []
    let qualityDurationCorr := calculateCorrelation sleepDurations sleepQualities
    let mismatch : List HealthInsight :=
      if qualityDurationCorr < 0.3 then
        [{ type := "pattern", title := "Sleep Quality vs Duration Mismatch",
           description := "Your sleep quality doesn\x27t strongly correlate with sleep duration.",
           confidence := 0.7, actionable := true,
           recommendation :=
             some "Focus on sleep quality factors like environment, routine, and stress management." }]
      else []
    irregular ++ debt ++ mismatch

/-- The fixed metric list iterated by `generateInsights` (line 317). -/
def metricsList : List String :=
  ["sleep_duration", "sleep_quality", "mood", "stress", "gi_flare", "skin_flare", "migraine"]

/-- Title `metric.replace('_', ' ').toUpperCase() + ' Trend'` of a trend
insight. -/
def metricTitle (m : String) : String := (m.replace "_" " ").toUpper ++ " Trend"

/-- `CorrelationsService.generateInsights`
(`src/services/correlationsService.ts`, lines 283-348): with fewer than 7
entries, exactly the single "Need More Data" insight; otherwise correlation
insights (`|r| > 0.3`), trend insights (`changeRate > 10`), pattern insights,
sorted descending by confidence. -/
def generateInsights (entries : List HealthEntrySchema) : List HealthInsight :=
  if entries.length < 7 then [needMoreDataInsight]
  else
    let correlations := analyzeSleepCorrelations entries
    let corrInsights :=
      (correlations.filter fun c => |c.correlation| > 0.3).map fun corr =>
        { type := "correlation", title := corr.sleepMetric ++ " & " ++ corr.symptomMetric,
          description := corr.description, confidence := |corr.correlation|,
          actionable := true, recommendation := some corr.actionableInsight : HealthInsight }
    let trendInsights := metricsList.foldr
      (fun metric acc =>
        match analyzeTrends entries metric 30 with
        | some t =>
          if t.changeRate > 10 then
            { type := "trend", title := metricTitle metric,
              description := "Your " ++ metric.replace "_" " " ++ " is " ++ trendDirStr t.trend ++
                " by " ++ toFixed 1 t.changeRate ++ "% over the last " ++ t.period,
              confidence := 1 - t.significance, actionable := true,
              recommendation := some (getTrendRecommendation metric (trendDirStr t.trend)) :
              HealthInsight } :: acc
          else acc
        | none => acc) []
    let patternInsights := analyzeSleepPatterns entries
    (corrInsights ++ trendInsights ++ patternInsights).mergeSort fun a b =>
      decide (b.confidence ≤ a.confidence)

end CorrelationsService

/-! ### Shared date comparators for the entry sorts -/

/-- Comparator `(a, b) => new Date(a.date) - new Date(b.date)` (ascending by
date) as a `mergeSort` predicate. -/
def dateAscLe (a b : HealthEntrySchema) : Bool := decide (dv a.date ≤ dv b.date)

/-- Comparator `(a, b) => new Date(b.date) - new Date(a.date)` (descending by
date) as a `mergeSort` predicate. -/
def dateDescLe (a b : HealthEntrySchema) : Bool := decide (dv b.date ≤ dv a.date)

/-- Descending comparator on date strings, used for the distinct-dates list in
the streak computation. -/
def strDescLe (a b : String) : Bool := decide (dv b ≤ dv a)

namespace InsightsService

/-- Insight record of the insights service (`Insight` in the service file). -/
structure Insight where
  id : String
  type : String
  title : String
  description : String
  actionable : Bool
  priority : String
  confidence : ℚ
  recommendations : Option (List String)
  category : String
deriving DecidableEq

/-- `InsightsService.analyzeSleepPatterns` (insights service, lines 724-753):
entries with truthy (nonzero) duration and quality, low-average-duration
alert. -/
def analyzeSleepPatterns (data : List HealthEntrySchema) : List Insight :=
  let sleepData := data.filter fun e =>
    decide (e.sleep.duration_hours ≠ 0) && decide (e.sleep.quality_score ≠ 0)
  if sleepData.length < 7 then []
  else
    let durations := sleepData.map fun e => e.sleep.duration_hours
    let avgDuration := durations.sum / (durations.length : ℚ)
    if avgDuration < 6.5 then
      [{ id := "sleep_duration_low", type := "sleep", title := "Sleep Duration Alert",
         description := "Your average sleep duration is " ++ toFixed 1 avgDuration ++
           " hours, which is below the recommended 7-9 hours.",
         actionable := true, priority := "high", confidence := 0.9,
         recommendations := some
           ["Try going to bed 30 minutes earlier",
            "Create a consistent bedtime routine",
            "Avoid screens 1 hour before bed",
            "Keep your bedroom cool and dark"],
         category := "warning" }]
    else []

/-- `InsightsService.analyzeMoodTrends` (insights service, lines 755-785):
recent 7-entry mood average more than 1.5 below the overall average. -/
def analyzeMoodTrends (data : List HealthEntrySchema) : List Insight :=
  let moodData := data.filter fun e => decide (e.mood.mood_score ≠ 0)
  if moodData.length < 7 then []
  else
    let moods := moodData.map fun e => e.mood.mood_score
    let avgMood := moods.sum / (moods.length : ℚ)
    let recentMood := (moods.drop (moods.length - 7)).sum / 7
    if recentMood < avgMood - 1.5 then
      [{ id := "mood_declining", type := "mood", title := "Mood Trend Alert",
         description := "Your mood has declined from " ++ toFixed 1 avgMood ++ " to " ++
           toFixed 1 recentMood ++ " over the past week.",
         actionable := true, priority := "high", confidence := 0.8,
         recommendations := some
           ["Consider talking to a mental health professional",
            "Try daily gratitude journaling",
            "Increase physical activity",
            "Connect with friends and family"],
         category := "warning" }]
    else []

/-- `InsightsService.analyzeStressPatterns` (insights service, lines 787-816):
average stress above 7. -/
def analyzeStressPatterns (data : List HealthEntrySchema) : List Insight :=
  let stressData := data.filter fun e => decide (e.mood.stress_score ≠ 0)
  if stressData.length < 7 then []
  else
    let stressLevels := stressData.map fun e => e.mood.stress_score
    let avgStress := stressLevels.sum / (stressLevels.length : ℚ)
    if avgStress > 7 then
      [{ id := "high_stress", type := "stress", title := "High Stress Levels",
         description := "Your average stress level is " ++ toFixed 1 avgStress ++
           "/10, which is quite high.",
         actionable := true, priority := "high", confidence := 0.9,
         recommendations := some
           ["Practice deep breathing exercises",
            "Try progressive muscle relaxation",
            "Consider stress management therapy",
            "Identify and address stress sources"],
         category := "warning" }]
    else []

/-- Priority weight `{ high: 3, medium: 2, low: 1 }` of the final sort. -/
def priorityOrder (p : String) : ℕ :=
  if p = "high" then 3 else if p = "medium" then 2 else 1

/-- The final comparator of `generateInsights`: descending priority weight,
then descending confidence. -/
def insightLe (a b : Insight) : Bool :=
  if priorityOrder b.priority = priorityOrder a.priority then decide (b.confidence ≤ a.confidence)
  else decide (priorityOrder b.priority ≤ priorityOrder a.priority)

/-- `InsightsService.generateInsights` (insights service, lines 703-722).
With fewer than 7 entries it returns the **empty** list (it pushes no
"need more data" insight); otherwise it sorts the caller's array ascending by
date in place and concatenates the three analyzers' results, sorted by
priority then confidence. -/
def generateInsights (healthData : List HealthEntrySchema) : List Insight :=
  if healthData.length < 7 then []
  else
    let sortedData := healthData.mergeSort dateAscLe
    let insights := analyzeSleepPatterns sortedData ++ analyzeMoodTrends sortedData ++
      analyzeStressPatterns sortedData
    insights.mergeSort insightLe

/-- Contents of the caller's `healthData` array after
`InsightsService.generateInsights` returns: `healthData.sort(...)` sorts the
argument array in place once at least 7 entries exist. -/
def generateInsightsArrayAfter (healthData : List HealthEntrySchema) : List HealthEntrySchema :=
  if healthData.length < 7 then healthData else healthData.mergeSort dateAscLe

end InsightsService

namespace GamificationService

/-- Badge record (gamification service). -/
structure Badge where
  id : String
  name : String
  description : String
  icon : String
  color : String
  category : String
  unlockedAt : Option ℤ
  progress : ℕ
  maxProgress : ℕ
  isUnlocked : Bool
deriving DecidableEq

/-- Streak summary (`StreakData`). -/
structure StreakData where
  currentStreak : ℕ
  longestStreak : ℕ
  lastLogDate : String
  streakType : String
deriving DecidableEq

/-- Achievement record (gamification service). -/
structure Achievement where
  id : String
  title : String
  description : String
  points : ℕ
  unlockedAt : Option ℤ
  isUnlocked : Bool
deriving DecidableEq

/-- Improvement trend union `'up' | 'down' | 'stable'`. -/
inductive ImpTrend where
  | up : ImpTrend
  | down : ImpTrend
  | stable : ImpTrend
deriving DecidableEq

/-- Aggregate statistics record (`UserStats`). -/
structure UserStats where
  totalLogs : ℕ
  totalDays : ℕ
  averageMood : ℚ
  averageSleep : ℚ
  averageStress : ℚ
  improvementTrend : ImpTrend
  badges : List Badge
  achievements : List Achievement
  streaks : StreakData
  level : ℕ
  experience : ℕ
  nextLevelExp : ℕ
deriving DecidableEq

/-- Composite wellness score average of `calculateAverageScore`
(gamification service, lines 374-383): mean of `(mood + sleep + (10 - stress))/3`
over entries where that composite is positive; 0 when none qualify. -/
def calculateAverageScore (data : List HealthEntrySchema) : ℚ :=
  let scores := (data.map fun e =>
    (e.mood.mood_score + e.sleep.quality_score + (10 - e.mood.stress_score)) / 3).filter
    fun s => decide (0 < s)
  if scores.length > 0 then scores.sum / (scores.length : ℚ) else 0

/-- `GamificationService.calculateImprovementTrend` (gamification service,
lines 357-372): first-half versus second-half composite average, >5% relative
change.  When `firstAvg = 0` and `secondAvg > 0` JavaScript computes Infinity
(classified `'up'`); rational division by zero gives 0 (`'stable'`); no
verified claim evaluates that case. -/
def calculateImprovementTrend (healthData : List HealthEntrySchema) : ImpTrend :=
  if healthData.length < 14 then .stable
  else
    let sortedData := healthData.mergeSort dateAscLe
    let firstHalf := sortedData.take (sortedData.length / 2)
    let secondHalf := sortedData.drop (sortedData.length / 2)
    let firstAvg := calculateAverageScore firstHalf
    let secondAvg := calculateAverageScore secondHalf
    let change := ((secondAvg - firstAvg) / firstAvg) * 100
    if change > 5 then .up
    else if change < -5 then .down
    else .stable

/-- Contents of the caller's array after `calculateImprovementTrend`: the
in-place ascending date sort happens only once at least 14 entries exist. -/
def calculateImprovementTrendArrayAfter (healthData : List HealthEntrySchema) :
    List HealthEntrySchema :=
  if healthData.length < 14 then healthData else healthData.mergeSort dateAscLe

/-- Membership test `sortedData.some(entry => entry.date === dateStr)` of the
current-streak walk, at the walk day `d`. -/
def hasLog (sortedData : List HealthEntrySchema) (d : ℤ) : Bool :=
  sortedData.any fun e => e.date == formatDate d

/-- The current-streak loop (gamification service, lines 400-414): walk
backward from the walk day counting consecutive days with an entry, breaking
at the first gap, for at most `fuel` (365) iterations. -/
def currentLoop (sortedData : List HealthEntrySchema) : ℤ → ℕ → ℕ
  | _, 0 => 0
  | d, fuel + 1 =>
    if hasLog sortedData d then currentLoop sortedData (d - 1) fuel + 1 else 0

/-- Body of the longest-streak loop (gamification service, lines 422-438),
recursing over the remaining distinct dates: a day-over-day difference of
exactly 1 extends the run, anything else closes it; the final iteration closes
the last run. -/
def longestFrom : String → List String → ℕ → ℕ → ℕ
  | _, [], longest, temp => max longest (temp + 1)
  | cur, next :: rest, longest, temp =>
    if daysDiff cur next = some 1 then longestFrom next rest longest (temp + 1)
    else longestFrom next rest (max longest (temp + 1)) 0

/-- The longest-streak loop over the sorted distinct dates; 0 for no dates. -/
def longestLoop : List String → ℕ
  | [] => 0
  | d :: rest => longestFrom d rest 0 0

/-- Date of the first entry of a list, `""` when empty. -/
def headDate : List HealthEntrySchema → String
  | [] => ""
  | e :: _ => e.date

/-- `GamificationService.calculateStreaks` (gamification service, lines
385-446).  `today` is the day number of `new Date()` at call time.  The
distinct-dates list is built with `new Set` (first occurrences) and re-sorted
descending; `List.dedup` keeps last occurrences instead, but the subsequent
sort is keyed by parse value and the claims' well-formedness hypotheses make
the keys distinct, so the sorted result is the same list. -/
def calculateStreaks (today : ℤ) (healthData : List HealthEntrySchema) : StreakData :=
  let sortedData := healthData.mergeSort dateDescLe
  if sortedData.isEmpty then
    { currentStreak := 0, longestStreak := 0, lastLogDate := "", streakType := "daily" }
  else
    { currentStreak := currentLoop sortedData today 365,
      longestStreak := longestLoop (((sortedData.map fun e => e.date).dedup).mergeSort strDescLe),
      lastLogDate := headDate sortedData,
      streakType := "daily" }

/-- Contents of the caller's array after `calculateStreaks`: the descending
in-place date sort happens unconditionally. -/
def calculateStreaksArrayAfter (healthData : List HealthEntrySchema) : List HealthEntrySchema :=
  healthData.mergeSort dateDescLe

/-- `GamificationService.calculateStats` (gamification service, lines
317-355).  `badges` and `achievements` are the service instance's current
lists, passed explicitly here. -/
def calculateStats (today : ℤ) (badges : List Badge) (achievements : List Achievement)
    (healthData : List HealthEntrySchema) : UserStats :=
  let totalLogs := healthData.length
  let totalDays := ((healthData.map fun e => e.date).dedup).length
  let moodScores := (healthData.map fun e => e.mood.mood_score).filter fun s => decide (0 < s)
  let sleepScores := (healthData.map fun e => e.sleep.quality_score).filter fun s => decide (0 < s)
  let stressScores := (healthData.map fun e => e.mood.stress_score).filter fun s => decide (0 < s)
  let averageMood := if moodScores.length > 0 then moodScores.sum / (moodScores.length : ℚ) else 0
  let averageSleep :=
    if sleepScores.length > 0 then sleepScores.sum / (sleepScores.length : ℚ) else 0
  let averageStress :=
    if stressScores.length > 0 then stressScores.sum / (stressScores.length : ℚ) else 0
  let experience := totalLogs * 10
  let level := experience / 100 + 1
  { totalLogs := totalLogs, totalDays := totalDays,
    averageMood := averageMood, averageSleep := averageSleep, averageStress := averageStress,
    improvementTrend := calculateImprovementTrend healthData,
    badges := badges, achievements := achievements,
    streaks := calculateStreaks today healthData,
    level := level, experience := experience, nextLevelExp := level * 100 }

/-- Metric selector of `getAverageScore` inside `checkImprovement`
(gamification service, lines 518-533). -/
def improvementScore (badgeId : String) (e : HealthEntrySchema) : ℚ :=
  if badgeId = "mood_improvement" then e.mood.mood_score
  else if badgeId = "sleep_improvement" then e.sleep.quality_score
  else if badgeId = "stress_reduction" then e.mood.stress_score
  else 0

/-- `getAverageScore` inside `checkImprovement`: mean of the selected metric
over entries with a positive value, 0 when none qualify. -/
def getAverageScore (data : List HealthEntrySchema) (badgeId : String) : ℚ :=
  let scores := (data.map (improvementScore badgeId)).filter fun s => decide (0 < s)
  if scores.length > 0 then scores.sum / (scores.length : ℚ) else 0

/-- `GamificationService.checkImprovement` (gamification service, lines
509-543): with at least 14 entries, compare the average of the badge's metric
over the last 7 entries (by date) against the previous 7; stress must drop by
strictly more than 2 points, mood/sleep must rise by strictly more than 2. -/
def checkImprovement (healthData : List HealthEntrySchema) (badgeId : String) : Bool :=
  if healthData.length < 14 then false
  else
    let sortedData := healthData.mergeSort dateAscLe
    let last7Days := sortedData.drop (sortedData.length - 7)
    let previous7Days := (sortedData.take (sortedData.length - 7)).drop (sortedData.length - 14)
    if last7Days.length < 7 ∨ previous7Days.length < 7 then false
    else
      let lastAvg := getAverageScore last7Days badgeId
      let prevAvg := getAverageScore previous7Days badgeId
      if badgeId = "stress_reduction" then decide (lastAvg < prevAvg - 2)
      else decide (lastAvg > prevAvg + 2)

/-- Body of the badge loop in `GamificationService.checkBadges` (gamification
service, lines 448-507): an already-unlocked badge is skipped untouched;
otherwise progress is recomputed by category and the badge may transition to
unlocked, stamped with the evaluation time `now`. -/
def updateBadge (healthData : List HealthEntrySchema) (stats : UserStats) (now : ℤ)
    (badge : Badge) : Badge :=
  if badge.isUnlocked then badge
  else
    let pu : ℕ × Bool :=
      if badge.id = "streak_3" ∨ badge.id = "streak_7" ∨ badge.id = "streak_30" ∨
          badge.id = "streak_100" then
        (min stats.streaks.currentStreak badge.maxProgress,
         decide (stats.streaks.currentStreak ≥ badge.maxProgress))
      else if badge.id = "consistency_week" then
        (min stats.streaks.currentStreak 7, decide (stats.streaks.currentStreak ≥ 7))
      else if badge.id = "consistency_month" then
        (min stats.streaks.currentStreak 30, decide (stats.streaks.currentStreak ≥ 30))
      else if badge.id = "milestone_50" ∨ badge.id = "milestone_100" ∨
          badge.id = "milestone_365" then
        (min stats.totalLogs badge.maxProgress, decide (stats.totalLogs ≥ badge.maxProgress))
      else if badge.id = "mood_improvement" ∨ badge.id = "sleep_improvement" ∨
          badge.id = "stress_reduction" then
        (if checkImprovement healthData badge.id then 1 else 0,
         checkImprovement healthData badge.id)
      else (0, false)
    let badge1 := { badge with progress := pu.1 }
    if pu.2 then { badge1 with isUnlocked := true, unlockedAt := some now } else badge1

/-- `GamificationService.checkBadges` as a pure state transformer: the source
mutates `this.badges` in place and collects newly unlocked badges for
persistence and notification; this returns the post-state of the list. -/
def checkBadges (healthData : List HealthEntrySchema) (stats : UserStats) (now : ℤ)
    (badges : List Badge) : List Badge :=
  badges.map (updateBadge healthData stats now)

/-- Body of the achievement loop in `GamificationService.checkAchievements`
(gamification service, lines 545-586): an already-unlocked achievement is
skipped untouched; otherwise the unlock condition for its id is evaluated. -/
def updateAchievement (stats : UserStats) (now : ℤ) (a : Achievement) : Achievement :=
  if a.isUnlocked then a
  else
    let shouldUnlock :=
      if a.id = "first_log" then decide (stats.totalLogs ≥ 1)
      else if a.id = "week_complete" then decide (stats.streaks.currentStreak ≥ 7)
      else if a.id = "month_complete" then decide (stats.streaks.currentStreak ≥ 30)
      else if a.id = "mood_master" then decide (stats.averageMood ≥ 8)
      else if a.id = "sleep_master" then decide (stats.averageSleep ≥ 8)
      else if a.id = "stress_master" then decide (stats.averageStress ≤ 3)
      else false
    if shouldUnlock then { a with isUnlocked := true, unlockedAt := some now } else a

/-- `GamificationService.checkAchievements` as a pure state transformer on the
achievement list. -/
def checkAchievements (stats : UserStats) (now : ℤ) (achievements : List Achievement) :
    List Achievement :=
  achievements.map (updateAchievement stats now)

end GamificationService

namespace GamificationService

/-- The static badge catalog built by `initializeBadges` (gamification
service, lines 66-243). -/
def initialBadges : List Badge :=
  [{ id := "streak_3", name := "Getting Started", description := "Log 3 days in a row",
     icon := "flame", color := "#FF6B6B", category := "streak",
     unlockedAt := none, progress := 0, maxProgress := 3, isUnlocked := false },
   { id := "streak_7", name := "Week Warrior", description := "Log 7 days in a row",
     icon := "trophy", color := "#4ECDC4", category := "streak",
     unlockedAt := none, progress := 0, maxProgress := 7, isUnlocked := false },
   { id := "streak_30", name := "Monthly Master", description := "Log 30 days in a row",
     icon := "medal", color := "#45B7D1", category := "streak",
     unlockedAt := none, progress := 0, maxProgress := 30, isUnlocked := false },
   { id := "streak_100", name := "Century Champion", description := "Log 100 days in a row",
     icon := "star", color := "#96CEB4", category := "streak",
     unlockedAt := none, progress := 0, maxProgress := 100, isUnlocked := false },
   { id := "consistency_week", name := "Weekly Warrior", description := "Log every day for a week",
     icon := "calendar", color := "#FECA57", category := "consistency",
     unlockedAt := none, progress := 0, maxProgress := 7, isUnlocked := false },
   { id := "consistency_month", name := "Monthly Master",
     description := "Log every day for a month",
     icon := "calendar-outline", color := "#FF9FF3", category := "consistency",
     unlockedAt := none, progress := 0, maxProgress := 30, isUnlocked := false },
   { id := "mood_improvement", name := "Mood Booster",
     description := "Improve mood score by 2+ points over 7 days",
     icon := "happy", color := "#54A0FF", category := "improvement",
     unlockedAt := none, progress := 0, maxProgress := 1, isUnlocked := false },
   { id := "sleep_improvement", name := "Sleep Optimizer",
     description := "Improve sleep quality by 2+ points over 7 days",
     icon := "moon", color := "#5F27CD", category := "improvement",
     unlockedAt := none, progress := 0, maxProgress := 1, isUnlocked := false },
   { id := "stress_reduction", name := "Stress Buster",
     description := "Reduce stress by 2+ points over 7 days",
     icon := "leaf", color := "#00D2D3", category := "improvement",
     unlockedAt := none, progress := 0, maxProgress := 1, isUnlocked := false },
   { id := "milestone_50", name := "Half Century", description := "Complete 50 health logs",
     icon := "checkmark-circle", color := "#FF6348", category := "milestone",
     unlockedAt := none, progress := 0, maxProgress := 50, isUnlocked := false },
   { id := "milestone_100", name := "Century Club", description := "Complete 100 health logs",
     icon := "ribbon", color := "#2ED573", category := "milestone",
     unlockedAt := none, progress := 0, maxProgress := 100, isUnlocked := false },
   { id := "milestone_365", name := "Year Warrior", description := "Complete 365 health logs",
     icon := "trophy-outline", color := "#FFA502", category := "milestone",
     unlockedAt := none, progress := 0, maxProgress := 365, isUnlocked := false },
   { id := "early_bird", name := "Early Bird", description := "Log before 8 AM for 7 days",
     icon := "sunny", color := "#FFD700", category := "special",
     unlockedAt := none, progress := 0, maxProgress := 7, isUnlocked := false },
   { id := "night_owl", name := "Night Owl", description := "Log after 10 PM for 7 days",
     icon := "moon", color := "#8B5CF6", category := "special",
     unlockedAt := none, progress := 0, maxProgress := 7, isUnlocked := false },
   { id := "perfectionist", name := "Perfectionist",
     description := "Rate sleep quality 10/10 for 5 days",
     icon := "star", color := "#F59E0B", category := "special",
     unlockedAt := none, progress := 0, maxProgress := 5, isUnlocked := false }]

/-- The static achievement catalog built by `initializeAchievements`
(gamification service, lines 245-304). -/
def initialAchievements : List Achievement :=
  [{ id := "first_log", title := "First Steps",
     description := "Complete your first health log", points := 10,
     unlockedAt := none, isUnlocked := false },
   { id := "week_complete", title := "Week Complete",
     description := "Log every day for a full week", points := 50,
     unlockedAt := none, isUnlocked := false },
   { id := "month_complete", title := "Month Complete",
     description := "Log every day for a full month", points := 200,
     unlockedAt := none, isUnlocked := false },
   { id := "mood_master", title := "Mood Master",
     description := "Maintain average mood above 8 for a week", points := 100,
     unlockedAt := none, isUnlocked := false },
   { id := "sleep_master", title := "Sleep Master",
     description := "Maintain average sleep quality above 8 for a week", points := 100,
     unlockedAt := none, isUnlocked := false },
   { id := "stress_master", title := "Stress Master",
     description := "Keep stress levels below 3 for a week", points := 100,
     unlockedAt := none, isUnlocked := false },
   { id := "data_analyst", title := "Data Analyst",
     description := "View your insights 10 times", points := 50,
     unlockedAt := none, isUnlocked := false },
   { id := "voice_logger", title := "Voice Logger",
     description := "Use voice journaling 10 times", points := 75,
     unlockedAt := none, isUnlocked := false }]

end GamificationService

/-! ### Concrete fixtures used to instantiate the theorems -/

/-- Builder for a concrete daily entry with the given mood, stress, sleep
quality and sleep duration. -/
def mkEntry (d : String) (mood stress quality duration : ℚ) : HealthEntrySchema :=
  { date := d,
    sleep := { start_time := "23:00", end_time := "07:00",
               duration_hours := duration, quality_score := quality },
    mood := { mood_score := mood, stress_score := stress,
              journal_entry := "", voice_note_path := none },
    symptoms := { gi_flare := 0, skin_flare := 0, migraine := 0 } }

/-- A generic sample entry. -/
def sampleEntry : HealthEntrySchema := mkEntry "0005-01-01" 5 5 7 8

/-- Entry dated 0005-01-01. -/
def exEntryA : HealthEntrySchema := mkEntry "0005-01-01" 5 5 7 8

/-- Entry dated 0005-01-02 (one day after `exEntryA`). -/
def exEntryB : HealthEntrySchema := mkEntry "0005-01-02" 5 5 7 8

/-- Four entries on 0005-01-06 and 0005-01-08..0005-01-10, listed out of
order: seen from 0005-01-10 the current streak is 3 with a gap at 01-07. -/
def exStreakEntries : List HealthEntrySchema :=
  [mkEntry "0005-01-08" 5 5 7 8, mkEntry "0005-01-10" 5 5 7 8,
   mkEntry "0005-01-09" 5 5 7 8, mkEntry "0005-01-06" 5 5 7 8]

/-- 14 entries on consecutive days: the first seven with mood 5, the last
seven with mood `lastMood` (stress 5, quality 7 throughout). -/
def improveEntries (lastMood : ℚ) : List HealthEntrySchema :=
  ((List.range 7).map fun i => mkEntry (formatDate (1500 + (i : ℤ))) 5 5 7 8) ++
    ((List.range 7).map fun i => mkEntry (formatDate (1507 + (i : ℤ))) lastMood 5 7 8)

/-- Three entries with linearly falling mood 9, 6, 3: the signed change rate
of the mood trend is −50%. -/
def exTrend3 : List HealthEntrySchema :=
  [mkEntry "0005-01-01" 9 5 7 8, mkEntry "0005-01-02" 6 5 7 8, mkEntry "0005-01-03" 3 5 7 8]

/-- A concrete `UserStats` value (the statistics of the empty entry list). -/
def exStats : GamificationService.UserStats :=
  GamificationService.calculateStats 0 [] [] []

/-- An already-unlocked badge. -/
def exUnlockedBadge : GamificationService.Badge :=
  { id := "streak_3", name := "Getting Started", description := "Log 3 days in a row",
    icon := "flame", color := "#FF6B6B", category := "streak",
    unlockedAt := some 41, progress := 3, maxProgress := 3, isUnlocked := true }

/-- An already-unlocked achievement. -/
def exUnlockedAchievement : GamificationService.Achievement :=
  { id := "first_log", title := "First Steps",
    description := "Complete your first health log", points := 10,
    unlockedAt := some 41, isUnlocked := true }

/-- The locked mood-improvement badge from the catalog. -/
def exMoodBadge : GamificationService.Badge :=
  { id := "mood_improvement", name := "Mood Booster",
    description := "Improve mood score by 2+ points over 7 days",
    icon := "happy", color := "#54A0FF", category := "improvement",
    unlockedAt := none, progress := 0, maxProgress := 1, isUnlocked := false }

/-- The locked sleep-improvement badge from the catalog. -/
def exSleepBadge : GamificationService.Badge :=
  { id := "sleep_improvement", name := "Sleep Optimizer",
    description := "Improve sleep quality by 2+ points over 7 days",
    icon := "moon", color := "#5F27CD", category := "improvement",
    unlockedAt := none, progress := 0, maxProgress := 1, isUnlocked := false }

/-- The locked stress-reduction badge from the catalog. -/
def exStressBadge : GamificationService.Badge :=
  { id := "stress_reduction", name := "Stress Buster",
    description := "Reduce stress by 2+ points over 7 days",
    icon := "leaf", color := "#00D2D3", category := "improvement",
    unlockedAt := none, progress := 0, maxProgress := 1, isUnlocked := false }

/-- Joins chunks with a separator character: the left inverse of `splitSep`,
used only to reason about it. -/
def joinSep (sep : Char) : List (List Char) → List Char
  | [] => []
  | [a] => a
  | a :: rest => a ++ sep :: joinSep sep rest

/-! ### Theorems -/

/-- C1 (amended): for every entry list with fewer than 7 entries,
`CorrelationsService.generateInsights` returns exactly one insight, the
"Need More Data" insight, and performs no further analysis — but
`InsightsService.generateInsights` returns the **empty** list for such inputs,
emitting no insight at all. -/
theorem c1_fewer_than_seven_insights :
    ∀ entries : List HealthEntrySchema, entries.length < 7 →
      CorrelationsService.generateInsights entries = [CorrelationsService.needMoreDataInsight] ∧
      InsightsService.generateInsights entries = [] := by
  intro entries h
  constructor
  · unfold CorrelationsService.generateInsights
    rw [if_pos h]
  · unfold InsightsService.generateInsights
    rw [if_pos h]

/-- Witness for `c1_fewer_than_seven_insights`, at the empty entry list. -/
theorem c1_fewer_than_seven_insights_witness :
    CorrelationsService.generateInsights [] = [CorrelationsService.needMoreDataInsight] ∧
    InsightsService.generateInsights ([] : List HealthEntrySchema) = [] :=
  c1_fewer_than_seven_insights [] (by decide)

/-- C1 counterexample: the empty entry list has fewer than 7 entries, yet
`InsightsService.generateInsights` returns no insight at all — not exactly one
"need more data" insight as claimed for both insight generators. -/
theorem c1_counterexample :
    InsightsService.generateInsights ([] : List HealthEntrySchema) = [] ∧
    (InsightsService.generateInsights ([] : List HealthEntrySchema)).length ≠ 1 :=
  ⟨rfl, by decide⟩

/-- C6: badge and achievement unlocking is monotonic — an item whose
`isUnlocked` is true before an evaluation is skipped entirely: it is returned
unchanged (so `isUnlocked` stays true and `unlockedAt` is untouched) for any
entry data, statistics and evaluation time, and it is still present in the
post-state list of `checkBadges` / `checkAchievements`. -/
theorem c6_unlock_monotonic :
    (∀ (hd : List HealthEntrySchema) (stats : GamificationService.UserStats) (now : ℤ)
        (b : GamificationService.Badge), b.isUnlocked = true →
        GamificationService.updateBadge hd stats now b = b) ∧
    (∀ (stats : GamificationService.UserStats) (now : ℤ)
        (a : GamificationService.Achievement), a.isUnlocked = true →
        GamificationService.updateAchievement stats now a = a) ∧
    (∀ (hd : List HealthEntrySchema) (stats : GamificationService.UserStats) (now : ℤ)
        (bs : List GamificationService.Badge) (b : GamificationService.Badge),
        b ∈ bs → b.isUnlocked = true →
        b ∈ GamificationService.checkBadges hd stats now bs) ∧
    (∀ (stats : GamificationService.UserStats) (now : ℤ)
        (as_ : List GamificationService.Achievement) (a : GamificationService.Achievement),
        a ∈ as_ → a.isUnlocked = true →
        a ∈ GamificationService.checkAchievements stats now as_) := by
  have hB : ∀ (hd : List HealthEntrySchema) (stats : GamificationService.UserStats) (now : ℤ)
      (b : GamificationService.Badge), b.isUnlocked = true →
      GamificationService.updateBadge hd stats now b = b := by
    intro hd stats now b h
    unfold GamificationService.updateBadge
    rw [if_pos h]
  have hA : ∀ (stats : GamificationService.UserStats) (now : ℤ)
      (a : GamificationService.Achievement), a.isUnlocked = true →
      GamificationService.updateAchievement stats now a = a := by
    intro stats now a h
    unfold GamificationService.updateAchievement
    rw [if_pos h]
  refine ⟨hB, hA, ?_, ?_⟩
  · intro hd stats now bs b hmem h
    unfold GamificationService.checkBadges
    exact List.mem_map.mpr ⟨b, hmem, hB hd stats now b h⟩
  · intro stats now as_ a hmem h
    unfold GamificationService.checkAchievements
    exact List.mem_map.mpr ⟨a, hmem, hA stats now a h⟩

/-- Witness for `c6_unlock_monotonic`: a concrete unlocked badge and
achievement survive an evaluation unchanged. -/
theorem c6_unlock_monotonic_witness :
    GamificationService.updateBadge [] exStats 99 exUnlockedBadge = exUnlockedBadge ∧
    GamificationService.updateAchievement exStats 99 exUnlockedAchievement =
      exUnlockedAchievement :=
  ⟨c6_unlock_monotonic.1 [] exStats 99 exUnlockedBadge rfl,
   c6_unlock_monotonic.2.1 exStats 99 exUnlockedAchievement rfl⟩

/-- C9: for every entry list the computed experience is 10 × the entry count
and the level is `floor(experience / 100) + 1`; in particular 9 entries give
level 1 and 10 entries give level 2. -/
theorem c9_experience_level :
    (∀ (today : ℤ) (bs : List GamificationService.Badge)
        (as_ : List GamificationService.Achievement) (entries : List HealthEntrySchema),
        (GamificationService.calculateStats today bs as_ entries).experience =
          entries.length * 10 ∧
        (GamificationService.calculateStats today bs as_ entries).level =
          entries.length * 10 / 100 + 1) ∧
    (GamificationService.calculateStats 800 [] [] (List.replicate 9 sampleEntry)).level = 1 ∧
    (GamificationService.calculateStats 800 [] [] (List.replicate 10 sampleEntry)).level = 2 :=
  ⟨fun _ _ _ _ => ⟨rfl, rfl⟩, rfl, rfl⟩

/-- C2 (amended): the analytics operations never add, remove or modify
entries — the caller's array after each call is a permutation of the one
passed in — but they do **not** preserve its element order:
`calculateImprovementTrend` (for ≥14 entries), `calculateStreaks` (always) and
`InsightsService.generateInsights` (for ≥7 entries) reorder the caller's array
in place by date-sorting it. -/
theorem c2_entries_permuted :
    ∀ l : List HealthEntrySchema,
      (GamificationService.calculateImprovementTrendArrayAfter l).Perm l ∧
      (GamificationService.calculateStreaksArrayAfter l).Perm l ∧
      (InsightsService.generateInsightsArrayAfter l).Perm l := by
  intro l
  refine ⟨?_, List.mergeSort_perm l _, ?_⟩
  · unfold GamificationService.calculateImprovementTrendArrayAfter
    split
    · exact List.Perm.refl l
    · exact List.mergeSort_perm l _
  · unfold InsightsService.generateInsightsArrayAfter
    split
    · exact List.Perm.refl l
    · exact List.mergeSort_perm l _

unseal List.merge List.mergeSort in
/-- C2 counterexample: a two-entry list handed to the streak calculation comes
back reversed — the caller's entry list is mutated in place, its element order
is not preserved. -/
theorem c2_counterexample :
    GamificationService.calculateStreaksArrayAfter [exEntryA, exEntryB] =
      [exEntryB, exEntryA] ∧
    [exEntryB, exEntryA] ≠ [exEntryA, exEntryB] :=
  ⟨rfl, by decide⟩

/-- Core NaN propagation of the sleep-duration arithmetic: if any of the four
parsed time components is NaN, the resulting duration is NaN. -/
theorem sleepCore_nan (a b c d : JSNum)
    (h : a = .nan ∨ b = .nan ∨ c = .nan ∨ d = .nan) :
    ((if (c * JSNum.num 60 + d).ltb (a * JSNum.num 60 + b) then
        (c * JSNum.num 60 + d) + JSNum.num 1440
      else (c * JSNum.num 60 + d)) - (a * JSNum.num 60 + b)).divQ 60 = .nan := by
  rcases a with _ | qa <;> rcases b with _ | qb <;> rcases c with _ | qc <;>
    rcases d with _ | qd <;> first
      | rfl
      | (rcases h with h | h | h | h <;> exact JSNum.noConfusion h)

/-- C3 (amended): the sleep-duration derivation never raises on malformed time
strings, but it does not default to 0: a non-numeric component (NaN after
split/parse) propagates, and both copies of the function return NaN. -/
theorem c3_malformed_times_nan :
    ∀ s e : String,
      (timePart s 0 = .nan ∨ timePart s 1 = .nan ∨
        timePart e 0 = .nan ∨ timePart e 1 = .nan) →
      HealthService.calculateSleepDuration s e = .nan ∧
      SleepTrackingScreen.calculateSleepDuration s e = .nan := by
  intro s e h
  constructor
  · simp only [HealthService.calculateSleepDuration]
    exact sleepCore_nan _ _ _ _ h
  · simp only [SleepTrackingScreen.calculateSleepDuration]
    rw [sleepCore_nan _ _ _ _ h]
    rfl

/-- Witness for `c3_malformed_times_nan` at the malformed pair
`("abc", "07:00")`. -/
theorem c3_malformed_times_nan_witness :
    HealthService.calculateSleepDuration "abc" "07:00" = .nan ∧
    SleepTrackingScreen.calculateSleepDuration "abc" "07:00" = .nan :=
  c3_malformed_times_nan "abc" "07:00" (Or.inl (by decide))

/-- C3 counterexample: at the malformed pair `("abc", "07:00")` the derivation
returns NaN — a non-numeric value — and not the claimed 0. -/
theorem c3_counterexample :
    HealthService.calculateSleepDuration "abc" "07:00" = JSNum.nan ∧
    SleepTrackingScreen.calculateSleepDuration "abc" "07:00" = JSNum.nan ∧
    JSNum.nan ≠ JSNum.num 0 :=
  ⟨rfl, rfl, by decide⟩

/-- Summation form of the AM-GM step: `2a·Σl ≤ n·a² + Σl²`. -/
theorem two_mul_sum_le (a : ℚ) (l : List ℚ) :
    2 * a * l.sum ≤ (l.length : ℚ) * (a * a) + ((l.map fun v => v * v).sum) := by
  induction l with
  | nil => simp
  | cons x l ih =>
    have hx : 2 * a * x ≤ a * a + x * x := by nlinarith [sq_nonneg (a - x)]
    simp only [List.sum_cons, List.map_cons, List.length_cons]
    push_cast
    nlinarith [ih, hx]

/-- Cauchy-Schwarz with the all-ones vector: `(Σl)² ≤ n·Σl²`. -/
theorem sum_mul_self_le (l : List ℚ) :
    l.sum * l.sum ≤ (l.length : ℚ) * ((l.map fun v => v * v).sum) := by
  induction l with
  | nil => simp
  | cons x l ih =>
    have hx := two_mul_sum_le x l
    simp only [List.sum_cons, List.map_cons, List.length_cons]
    push_cast
    nlinarith [ih, hx]

/-- The square of the Pearson denominator is never negative for the
equal-length arrays on which the source ever computes it (the guard returns 0
earlier otherwise): the square root in the source is always applied to a
nonnegative number and never yields NaN. -/
theorem corrDenomSq_nonneg (x y : List ℚ) (h : x.length = y.length) :
    0 ≤ CorrelationsService.corrDenomSq x y := by
  have hx := sum_mul_self_le x
  have hy := sum_mul_self_le y
  unfold CorrelationsService.corrDenomSq
  apply mul_nonneg
  · linarith
  · rw [h]
    linarith

/-- C7: whenever the Pearson denominator is zero the correlation function
returns exactly 0 (the division is guarded), the squared denominator is never
negative for the equal-length pairs that reach it (so the square root never
produces NaN and the guarded division never divides by zero), and in
particular a constant array always yields correlation 0. -/
theorem c7_pearson_zero_denominator :
    (∀ x y : List ℚ, CorrelationsService.corrDenomSq x y = 0 →
        CorrelationsService.calculateCorrelation x y = 0) ∧
    (∀ x y : List ℚ, x.length = y.length → 0 ≤ CorrelationsService.corrDenomSq x y) ∧
    (∀ (n : ℕ) (c : ℚ) (y : List ℚ), y.length = n →
        CorrelationsService.calculateCorrelation (List.replicate n c) y = 0) := by
  have h0 : ∀ x y : List ℚ, CorrelationsService.corrDenomSq x y = 0 →
      CorrelationsService.calculateCorrelation x y = 0 := by
    intro x y h
    simp [CorrelationsService.calculateCorrelation, h]
  refine ⟨h0, corrDenomSq_nonneg, ?_⟩
  intro n c y _
  apply h0
  unfold CorrelationsService.corrDenomSq
  have hs : (List.replicate n c).sum = (n : ℚ) * c := by
    rw [List.sum_replicate, nsmul_eq_mul]
  have hsq : ((List.replicate n c).map fun v => v * v).sum = (n : ℚ) * (c * c) := by
    rw [List.map_replicate, List.sum_replicate, nsmul_eq_mul]
  simp only [List.length_replicate]
  rw [hs, hsq]
  ring

/-- Witness for `c7_pearson_zero_denominator`: the constant array `[1, 1]`
paired with `[2, 3]` has zero denominator and correlation exactly 0. -/
theorem c7_pearson_zero_denominator_witness :
    CorrelationsService.corrDenomSq [1, 1] [2, 3] = 0 ∧
    CorrelationsService.calculateCorrelation [1, 1] [2, 3] = 0 :=
  ⟨by norm_num [CorrelationsService.corrDenomSq],
   c7_pearson_zero_denominator.1 [1, 1] [2, 3] (by norm_num [CorrelationsService.corrDenomSq])⟩

/-- Unpacking of a well-formed `HH:MM` time string into its two parsed
components. -/
theorem wellFormedTime_parts (s : String) (h : wellFormedTime s = true) :
    ∃ hh mm : ℕ, timePart s 0 = .num hh ∧ timePart s 1 = .num mm ∧ hh < 24 ∧ mm < 60 := by
  unfold wellFormedTime at h
  rcases hsp : splitSep ':' s.data with _ | ⟨p1, t⟩ <;> rw [hsp] at h
  · simp at h
  rcases t with _ | ⟨p2, t2⟩
  · simp at h
  rcases t2 with _ | ⟨p3, t3⟩
  · simp only [Bool.and_eq_true, decide_eq_true_eq, Bool.not_eq_true'] at h
    obtain ⟨⟨⟨⟨⟨h1, h2⟩, h3⟩, h4⟩, h5⟩, h6⟩ := h
    refine ⟨foldVal p1, foldVal p2, ?_, ?_, h5, h6⟩
    · unfold timePart
      rw [hsp]
      simp [jsNumberChunk, digitsToNat?, h1, h2]
    · unfold timePart
      rw [hsp]
      simp [jsNumberChunk, digitsToNat?, h3, h4]
  · simp at h

/-- Evaluation of the sleep-duration arithmetic on four parsed numeric
components: the JSNum operations collapse to a single rational. -/
theorem sleepCore_eval (sh sm eh em : ℚ) :
    ((if (JSNum.num eh * JSNum.num 60 + JSNum.num em).ltb
          (JSNum.num sh * JSNum.num 60 + JSNum.num sm) then
        JSNum.num eh * JSNum.num 60 + JSNum.num em + JSNum.num 1440
      else JSNum.num eh * JSNum.num 60 + JSNum.num em) -
        (JSNum.num sh * JSNum.num 60 + JSNum.num sm)).divQ 60 =
      JSNum.num (((if eh * 60 + em < sh * 60 + sm then eh * 60 + em + 1440
        else eh * 60 + em) - (sh * 60 + sm)) / 60) := by
  by_cases h : eh * 60 + em < sh * 60 + sm
  · have hb : (JSNum.num eh * JSNum.num 60 + JSNum.num em).ltb
        (JSNum.num sh * JSNum.num 60 + JSNum.num sm) = true := by
      show decide (eh * 60 + em < sh * 60 + sm) = true
      exact decide_eq_true h
    rw [if_pos hb, if_pos h]
    rfl
  · have hb : (JSNum.num eh * JSNum.num 60 + JSNum.num em).ltb
        (JSNum.num sh * JSNum.num 60 + JSNum.num sm) = false := by
      show decide (eh * 60 + em < sh * 60 + sm) = false
      exact decide_eq_false h
    rw [if_neg ?hc, if_neg h]
    case hc => simp [hb]
    rfl

/-- C8: for well-formed `HH:MM` start and end times both sleep-duration
functions return a nonnegative number (when the end is before the start the
code adds 1440 minutes for overnight sleep), and in particular
`duration("23:00", "07:00") = 8.0` in both. -/
theorem c8_sleep_duration_nonneg :
    (∀ s e : String, wellFormedTime s = true → wellFormedTime e = true →
      (∃ q : ℚ, HealthService.calculateSleepDuration s e = .num q ∧ 0 ≤ q) ∧
      (∃ q : ℚ, SleepTrackingScreen.calculateSleepDuration s e = .num q ∧ 0 ≤ q)) ∧
    HealthService.calculateSleepDuration "23:00" "07:00" = .num 8 ∧
    SleepTrackingScreen.calculateSleepDuration "23:00" "07:00" = .num 8 := by
  have h2300 : timePart "23:00" 0 = .num 23 ∧ timePart "23:00" 1 = .num 0 := by
    constructor <;> decide
  have h0700 : timePart "07:00" 0 = .num 7 ∧ timePart "07:00" 1 = .num 0 := by
    constructor <;> decide
  refine ⟨?_, ?_, ?_⟩
  · intro s e hws hwe
    obtain ⟨sh, sm, hs0, hs1, hsh, hsm⟩ := wellFormedTime_parts s hws
    obtain ⟨eh, em, he0, he1, _, _⟩ := wellFormedTime_parts e hwe
    have hshq : (sh : ℚ) ≤ 23 := by exact_mod_cast Nat.lt_succ_iff.mp hsh
    have hsmq : (sm : ℚ) ≤ 59 := by exact_mod_cast Nat.lt_succ_iff.mp hsm
    have hem : (0 : ℚ) ≤ (eh : ℚ) * 60 + em := by positivity
    have hq : (0 : ℚ) ≤ ((if (eh : ℚ) * 60 + em < (sh : ℚ) * 60 + sm then
        (eh : ℚ) * 60 + em + 1440 else (eh : ℚ) * 60 + em) - ((sh : ℚ) * 60 + sm)) / 60 := by
      apply div_nonneg _ (by norm_num)
      split
      · linarith
      · rename_i hge
        have := le_of_not_lt hge
        linarith
    constructor
    · refine ⟨_, ?_, hq⟩
      simp only [HealthService.calculateSleepDuration]
      rw [hs0, hs1, he0, he1, sleepCore_eval]
    · refine ⟨((⌊(((if (eh : ℚ) * 60 + em < (sh : ℚ) * 60 + sm then
          (eh : ℚ) * 60 + em + 1440 else (eh : ℚ) * 60 + em) -
          ((sh : ℚ) * 60 + sm)) / 60) * 100 + 1 / 2⌋ : ℤ) : ℚ) / 100, ?_, ?_⟩
      · simp only [SleepTrackingScreen.calculateSleepDuration]
        rw [hs0, hs1, he0, he1, sleepCore_eval]
        rfl
      · apply div_nonneg _ (by norm_num)
        have h0 : (0 : ℤ) ≤ ⌊(((if (eh : ℚ) * 60 + em < (sh : ℚ) * 60 + sm then
            (eh : ℚ) * 60 + em + 1440 else (eh : ℚ) * 60 + em) -
            ((sh : ℚ) * 60 + sm)) / 60) * 100 + 1 / 2⌋ := by
          apply Int.floor_nonneg.mpr
          have : (0 : ℚ) ≤ (((if (eh : ℚ) * 60 + em < (sh : ℚ) * 60 + sm then
              (eh : ℚ) * 60 + em + 1440 else (eh : ℚ) * 60 + em) -
              ((sh : ℚ) * 60 + sm)) / 60) * 100 := by positivity
          linarith
        exact_mod_cast h0
  · simp only [HealthService.calculateSleepDuration]
    rw [h2300.1, h2300.2, h0700.1, h0700.2, sleepCore_eval]
    simp only [JSNum.num.injEq]
    norm_num
  · simp only [SleepTrackingScreen.calculateSleepDuration]
    rw [h2300.1, h2300.2, h0700.1, h0700.2, sleepCore_eval]
    show JSNum.num _ = _
    simp only [JSNum.round2, JSNum.num.injEq]
    norm_num

/-- Witness for `c8_sleep_duration_nonneg` at the well-formed pair
`("10:00", "09:30")` (an overnight case). -/
theorem c8_sleep_duration_nonneg_witness :
    wellFormedTime "10:00" = true ∧ wellFormedTime "09:30" = true ∧
    ((∃ q : ℚ, HealthService.calculateSleepDuration "10:00" "09:30" = .num q ∧ 0 ≤ q) ∧
      (∃ q : ℚ, SleepTrackingScreen.calculateSleepDuration "10:00" "09:30" = .num q ∧ 0 ≤ q)) :=
  ⟨by decide, by decide, c8_sleep_duration_nonneg.1 "10:00" "09:30" (by decide) (by decide)⟩

/-- Sum of a mapped range as a `Finset.range` sum. -/
theorem list_range_map_sum (f : ℕ → ℚ) (n : ℕ) :
    ((List.range n).map f).sum = ∑ i ∈ Finset.range n, f i := by
  induction n with
  | zero => simp
  | succ n ih =>
    rw [List.range_succ, List.map_append, List.sum_append, Finset.sum_range_succ, ih]
    simp

/-- Sum of a list as a `Finset.range` sum over positional defaults. -/
theorem list_sum_getD (l : List ℚ) :
    l.sum = ∑ i ∈ Finset.range l.length, l.getD i 0 := by
  induction l with
  | nil => simp
  | cons a l ih =>
    rw [List.sum_cons, List.length_cons, Finset.sum_range_succ']
    simp only [List.getD_cons_succ, List.getD_cons_zero]
    rw [ih]
    ring

/-- Sum over the positionally zipped index/value pairs as a `Finset.range`
sum. -/
theorem list_zip_range_sum (f : ℕ → ℚ) (l : List ℚ) :
    ((((List.range l.length).map f).zip l).map fun p => p.1 * p.2).sum =
      ∑ i ∈ Finset.range l.length, f i * l.getD i 0 := by
  induction l generalizing f with
  | nil => simp
  | cons a l ih =>
    rw [List.length_cons, List.range_succ_eq_map]
    simp only [List.map_cons, List.map_map, List.zip_cons_cons, List.sum_cons]
    rw [Finset.sum_range_succ']
    simp only [List.getD_cons_succ, List.getD_cons_zero]
    rw [ih (f ∘ Nat.succ)]
    simp only [Function.comp]
    ring

/-- The code's slope equals the textbook least-squares closed form over index
positions `0..n-1`, written with `Finset.range` sums. -/
theorem slopeOf_closed_form (values : List ℚ) :
    CorrelationsService.slopeOf values =
      (((values.length : ℚ)) * (∑ i ∈ Finset.range values.length, (i : ℚ) * values.getD i 0) -
          (∑ i ∈ Finset.range values.length, (i : ℚ)) * values.sum) /
        (((values.length : ℚ)) * (∑ i ∈ Finset.range values.length, (i : ℚ) * (i : ℚ)) -
          (∑ i ∈ Finset.range values.length, (i : ℚ)) *
            (∑ i ∈ Finset.range values.length, (i : ℚ))) := by
  simp only [CorrelationsService.slopeOf]
  rw [list_zip_range_sum (Nat.cast : ℕ → ℚ) values, List.map_map,
    list_range_map_sum ((fun v => v * v) ∘ (Nat.cast : ℕ → ℚ)),
    list_range_map_sum (Nat.cast : ℕ → ℚ)]
  simp only [Function.comp_apply]

/-- The code's signed change-rate expression equals the spec's formula. -/
theorem changeRateOf_eq_spec (values : List ℚ) :
    CorrelationsService.changeRateOf values = CorrelationsService.specSignedRate values := by
  unfold CorrelationsService.changeRateOf CorrelationsService.specSignedRate
  rw [slopeOf_closed_form]

/-- C5 (amended): for at least 3 entries and a metric series with nonzero mean
over the 30-entry window, `analyzeTrends` classifies the trend by the **sign**
of the rate `slope / mean × 100` (slope the least-squares closed form over
index positions 0..n-1; stable iff the absolute rate is below 5), but the
`changeRate` field it returns is the **absolute value** of that rate, not the
signed rate itself. -/
theorem c5_trend_changeRate :
    ∀ (entries : List HealthEntrySchema) (metric : String),
      3 ≤ entries.length →
      (CorrelationsService.trendValues entries metric 30).sum ≠ 0 →
      ∃ t : CorrelationsService.TrendAnalysis,
        CorrelationsService.analyzeTrends entries metric 30 = some t ∧
        t.changeRate =
          |CorrelationsService.specSignedRate (CorrelationsService.trendValues entries metric 30)| ∧
        (t.trend = CorrelationsService.TrendDir.stable ↔
          |CorrelationsService.specSignedRate
            (CorrelationsService.trendValues entries metric 30)| < 5) ∧
        (¬|CorrelationsService.specSignedRate
            (CorrelationsService.trendValues entries metric 30)| < 5 →
          ((t.trend = CorrelationsService.TrendDir.increasing ↔
            0 < CorrelationsService.specSignedRate
              (CorrelationsService.trendValues entries metric 30)) ∧
           (t.trend = CorrelationsService.TrendDir.decreasing ↔
            CorrelationsService.specSignedRate
              (CorrelationsService.trendValues entries metric 30) < 0))) := by
  intro entries metric h3 hsum
  have hlen : (CorrelationsService.trendValues entries metric 30).length =
      entries.length - (entries.length - 30) := by
    unfold CorrelationsService.trendValues
    rw [List.length_map, List.length_drop]
  have hlen2 : ¬(CorrelationsService.trendValues entries metric 30).length < 2 := by omega
  have hval : CorrelationsService.analyzeTrends entries metric 30 =
      some { metric := metric,
             trend := if |CorrelationsService.changeRateOf
                 (CorrelationsService.trendValues entries metric 30)| < 5 then
                 CorrelationsService.TrendDir.stable
               else if CorrelationsService.changeRateOf
                   (CorrelationsService.trendValues entries metric 30) > 0 then
                 CorrelationsService.TrendDir.increasing
               else CorrelationsService.TrendDir.decreasing,
             changeRate := |CorrelationsService.changeRateOf
               (CorrelationsService.trendValues entries metric 30)|,
             period := toString 30 ++ " days",
             significance := CorrelationsService.calculateSignificance
               |CorrelationsService.slopeOf (CorrelationsService.trendValues entries metric 30)|
               (CorrelationsService.trendValues entries metric 30).length } := by
    simp only [CorrelationsService.analyzeTrends]
    rw [if_neg (by omega), if_neg hlen2]
  refine ⟨_, hval, ?_, ?_, ?_⟩
  · show |CorrelationsService.changeRateOf
        (CorrelationsService.trendValues entries metric 30)| = _
    rw [changeRateOf_eq_spec]
  · show (if |CorrelationsService.changeRateOf
        (CorrelationsService.trendValues entries metric 30)| < 5 then
        CorrelationsService.TrendDir.stable
      else if CorrelationsService.changeRateOf
          (CorrelationsService.trendValues entries metric 30) > 0 then
        CorrelationsService.TrendDir.increasing
      else CorrelationsService.TrendDir.decreasing) = CorrelationsService.TrendDir.stable ↔ _
    rw [changeRateOf_eq_spec]
    set c := CorrelationsService.specSignedRate
      (CorrelationsService.trendValues entries metric 30) with hc
    by_cases h5 : |c| < 5
    · simp [h5]
    · by_cases hpos : c > 0 <;> simp [h5, hpos]
  · intro h5
    show ((if |CorrelationsService.changeRateOf
          (CorrelationsService.trendValues entries metric 30)| < 5 then
          CorrelationsService.TrendDir.stable
        else if CorrelationsService.changeRateOf
            (CorrelationsService.trendValues entries metric 30) > 0 then
          CorrelationsService.TrendDir.increasing
        else CorrelationsService.TrendDir.decreasing) =
          CorrelationsService.TrendDir.increasing ↔ _) ∧
      ((if |CorrelationsService.changeRateOf
          (CorrelationsService.trendValues entries metric 30)| < 5 then
          CorrelationsService.TrendDir.stable
        else if CorrelationsService.changeRateOf
            (CorrelationsService.trendValues entries metric 30) > 0 then
          CorrelationsService.TrendDir.increasing
        else CorrelationsService.TrendDir.decreasing) =
          CorrelationsService.TrendDir.decreasing ↔ _)
    rw [changeRateOf_eq_spec]
    set c := CorrelationsService.specSignedRate
      (CorrelationsService.trendValues entries metric 30) with hc
    by_cases hpos : c > 0
    · constructor
      · simp [h5, hpos]
      · simp only [if_neg h5, if_pos hpos]
        constructor
        · intro h
          exact absurd h (by simp)
        · intro h
          linarith
    · have hneg : c < 0 := by
        rcases lt_trichotomy c 0 with h | h | h
        · exact h
        · exact absurd (by rw [h]; norm_num : |c| < 5) h5
        · exact absurd h hpos
      constructor
      · simp only [if_neg h5, if_neg hpos]
        constructor
        · intro h
          exact absurd h (by simp)
        · intro h
          linarith
      · simp [h5, hpos, hneg]

/-- Witness for `c5_trend_changeRate` at the three falling-mood entries of
`exTrend3`. -/
theorem c5_trend_changeRate_witness :
    ∃ t : CorrelationsService.TrendAnalysis,
      CorrelationsService.analyzeTrends exTrend3 "mood" 30 = some t ∧
      t.changeRate =
        |CorrelationsService.specSignedRate (CorrelationsService.trendValues exTrend3 "mood" 30)| ∧
      (t.trend = CorrelationsService.TrendDir.stable ↔
        |CorrelationsService.specSignedRate
          (CorrelationsService.trendValues exTrend3 "mood" 30)| < 5) ∧
      (¬|CorrelationsService.specSignedRate
          (CorrelationsService.trendValues exTrend3 "mood" 30)| < 5 →
        ((t.trend = CorrelationsService.TrendDir.increasing ↔
          0 < CorrelationsService.specSignedRate
            (CorrelationsService.trendValues exTrend3 "mood" 30)) ∧
         (t.trend = CorrelationsService.TrendDir.decreasing ↔
          CorrelationsService.specSignedRate
            (CorrelationsService.trendValues exTrend3 "mood" 30) < 0))) :=
  c5_trend_changeRate exTrend3 "mood" (by decide)
    (by
      rw [show CorrelationsService.trendValues exTrend3 "mood" 30 = [9, 6, 3] from by decide]
      norm_num)

/-- C5 counterexample: for the three entries with mood 9, 6, 3 the signed rate
`slope / mean × 100` is −50, but the returned record carries
`changeRate = 50` (the absolute value) with trend `decreasing` — the claim
that the returned `changeRate` equals the signed `slope / mean × 100` fails. -/
theorem c5_counterexample :
    CorrelationsService.specSignedRate (CorrelationsService.trendValues exTrend3 "mood" 30) =
      -50 ∧
    (∃ t : CorrelationsService.TrendAnalysis,
      CorrelationsService.analyzeTrends exTrend3 "mood" 30 = some t ∧
      t.changeRate = 50 ∧ t.trend = CorrelationsService.TrendDir.decreasing) := by
  have hv : CorrelationsService.trendValues exTrend3 "mood" 30 = [9, 6, 3] := by decide
  have hspec : CorrelationsService.specSignedRate [9, 6, 3] = -50 := by
    norm_num [CorrelationsService.specSignedRate, Finset.sum_range_succ,
      List.getD_cons_zero, List.getD_cons_succ]
  have hcr : CorrelationsService.changeRateOf [9, 6, 3] = -50 := by
    rw [changeRateOf_eq_spec, hspec]
  constructor
  · rw [hv, hspec]
  · have hval : CorrelationsService.analyzeTrends exTrend3 "mood" 30 = some
        { metric := "mood",
          trend := if |CorrelationsService.changeRateOf [9, 6, 3]| < 5 then
              CorrelationsService.TrendDir.stable
            else if CorrelationsService.changeRateOf [9, 6, 3] > 0 then
              CorrelationsService.TrendDir.increasing
            else CorrelationsService.TrendDir.decreasing,
          changeRate := |CorrelationsService.changeRateOf [9, 6, 3]|,
          period := toString 30 ++ " days",
          significance := CorrelationsService.calculateSignificance
            |CorrelationsService.slopeOf [9, 6, 3]| ([9, 6, 3] : List ℚ).length } := by
      simp only [CorrelationsService.analyzeTrends]
      rw [if_neg (by decide), hv, if_neg (by decide : ¬([9, 6, 3] : List ℚ).length < 2)]
    refine ⟨_, hval, ?_, ?_⟩
    · show |CorrelationsService.changeRateOf [9, 6, 3]| = 50
      rw [hcr]
      norm_num
    · show (if |CorrelationsService.changeRateOf [9, 6, 3]| < 5 then
          CorrelationsService.TrendDir.stable
        else if CorrelationsService.changeRateOf [9, 6, 3] > 0 then
          CorrelationsService.TrendDir.increasing
        else CorrelationsService.TrendDir.decreasing) = CorrelationsService.TrendDir.decreasing
      rw [hcr]
      norm_num

/-- For a locked improvement badge, the badge's post-evaluation unlock state
is exactly the result of `checkImprovement` for its id. -/
theorem updateBadge_improvement_eval (hd : List HealthEntrySchema)
    (stats : GamificationService.UserStats) (now : ℤ) :
    ((GamificationService.updateBadge hd stats now exMoodBadge).isUnlocked =
      GamificationService.checkImprovement hd "mood_improvement") ∧
    ((GamificationService.updateBadge hd stats now exSleepBadge).isUnlocked =
      GamificationService.checkImprovement hd "sleep_improvement") ∧
    ((GamificationService.updateBadge hd stats now exStressBadge).isUnlocked =
      GamificationService.checkImprovement hd "stress_reduction") := by
  refine ⟨?_, ?_, ?_⟩
  · by_cases himp : GamificationService.checkImprovement hd "mood_improvement" <;>
      simp [GamificationService.updateBadge, exMoodBadge, himp]
  · by_cases himp : GamificationService.checkImprovement hd "sleep_improvement" <;>
      simp [GamificationService.updateBadge, exSleepBadge, himp]
  · by_cases himp : GamificationService.checkImprovement hd "stress_reduction" <;>
      simp [GamificationService.updateBadge, exStressBadge, himp]

/-- The unguarded comparison form of `checkImprovement` once at least 14
entries exist. -/
theorem checkImprovement_eval (hd : List HealthEntrySchema) (h14 : 14 ≤ hd.length)
    (bid : String) :
    GamificationService.checkImprovement hd bid =
      (if bid = "stress_reduction" then
        decide (GamificationService.getAverageScore
            ((hd.mergeSort dateAscLe).drop ((hd.mergeSort dateAscLe).length - 7)) bid <
          GamificationService.getAverageScore
            (((hd.mergeSort dateAscLe).take ((hd.mergeSort dateAscLe).length - 7)).drop
              ((hd.mergeSort dateAscLe).length - 14)) bid - 2)
      else
        decide (GamificationService.getAverageScore
            ((hd.mergeSort dateAscLe).drop ((hd.mergeSort dateAscLe).length - 7)) bid >
          GamificationService.getAverageScore
            (((hd.mergeSort dateAscLe).take ((hd.mergeSort dateAscLe).length - 7)).drop
              ((hd.mergeSort dateAscLe).length - 14)) bid + 2)) := by
  have hlen : (hd.mergeSort dateAscLe).length = hd.length := (List.mergeSort_perm hd _).length_eq
  simp only [GamificationService.checkImprovement]
  rw [if_neg (by omega), if_neg ?hg]
  case hg =>
    rw [List.length_drop, List.length_drop, List.length_take, hlen]
    omega

/-- C4 (amended): with at least 14 entries, each of the three locked
improvement badges unlocks **iff** the average of its metric over the last 7
entries (entries with a positive score), compared with the previous 7, has
shifted by **strictly more than** 2 points in the required direction — the
stress average must drop by more than 2, the mood and sleep-quality averages
must rise by more than 2.  A shift of exactly 2 points does not unlock. -/
theorem c4_improvement_badges_strict :
    ∀ (hd : List HealthEntrySchema) (stats : GamificationService.UserStats) (now : ℤ),
      14 ≤ hd.length →
      (((GamificationService.updateBadge hd stats now exMoodBadge).isUnlocked = true) ↔
        GamificationService.getAverageScore
            ((hd.mergeSort dateAscLe).drop ((hd.mergeSort dateAscLe).length - 7))
            "mood_improvement" >
          GamificationService.getAverageScore
            (((hd.mergeSort dateAscLe).take ((hd.mergeSort dateAscLe).length - 7)).drop
              ((hd.mergeSort dateAscLe).length - 14)) "mood_improvement" + 2) ∧
      (((GamificationService.updateBadge hd stats now exSleepBadge).isUnlocked = true) ↔
        GamificationService.getAverageScore
            ((hd.mergeSort dateAscLe).drop ((hd.mergeSort dateAscLe).length - 7))
            "sleep_improvement" >
          GamificationService.getAverageScore
            (((hd.mergeSort dateAscLe).take ((hd.mergeSort dateAscLe).length - 7)).drop
              ((hd.mergeSort dateAscLe).length - 14)) "sleep_improvement" + 2) ∧
      (((GamificationService.updateBadge hd stats now exStressBadge).isUnlocked = true) ↔
        GamificationService.getAverageScore
            ((hd.mergeSort dateAscLe).drop ((hd.mergeSort dateAscLe).length - 7))
            "stress_reduction" <
          GamificationService.getAverageScore
            (((hd.mergeSort dateAscLe).take ((hd.mergeSort dateAscLe).length - 7)).drop
              ((hd.mergeSort dateAscLe).length - 14)) "stress_reduction" - 2) := by
  intro hd stats now h14
  obtain ⟨hm, hs, hst⟩ := updateBadge_improvement_eval hd stats now
  refine ⟨?_, ?_, ?_⟩
  · rw [hm, checkImprovement_eval hd h14]
    rw [if_neg (by decide)]
    simp only [decide_eq_true_eq]
  · rw [hs, checkImprovement_eval hd h14]
    rw [if_neg (by decide)]
    simp only [decide_eq_true_eq]
  · rw [hst, checkImprovement_eval hd h14]
    rw [if_pos (by decide)]
    simp only [decide_eq_true_eq]

/-- Witness for `c4_improvement_badges_strict` at the 14-entry fixture whose
last-7 mood average is 7.5 against a previous average of 5. -/
theorem c4_improvement_badges_strict_witness :
    (((GamificationService.updateBadge (improveEntries (15 / 2)) exStats 0
        exMoodBadge).isUnlocked = true) ↔
      GamificationService.getAverageScore
          (((improveEntries (15 / 2)).mergeSort dateAscLe).drop
            (((improveEntries (15 / 2)).mergeSort dateAscLe).length - 7))
          "mood_improvement" >
        GamificationService.getAverageScore
          ((((improveEntries (15 / 2)).mergeSort dateAscLe).take
            (((improveEntries (15 / 2)).mergeSort dateAscLe).length - 7)).drop
            (((improveEntries (15 / 2)).mergeSort dateAscLe).length - 14))
          "mood_improvement" + 2) ∧
    (((GamificationService.updateBadge (improveEntries (15 / 2)) exStats 0
        exSleepBadge).isUnlocked = true) ↔
      GamificationService.getAverageScore
          (((improveEntries (15 / 2)).mergeSort dateAscLe).drop
            (((improveEntries (15 / 2)).mergeSort dateAscLe).length - 7))
          "sleep_improvement" >
        GamificationService.getAverageScore
          ((((improveEntries (15 / 2)).mergeSort dateAscLe).take
            (((improveEntries (15 / 2)).mergeSort dateAscLe).length - 7)).drop
            (((improveEntries (15 / 2)).mergeSort dateAscLe).length - 14))
          "sleep_improvement" + 2) ∧
    (((GamificationService.updateBadge (improveEntries (15 / 2)) exStats 0
        exStressBadge).isUnlocked = true) ↔
      GamificationService.getAverageScore
          (((improveEntries (15 / 2)).mergeSort dateAscLe).drop
            (((improveEntries (15 / 2)).mergeSort dateAscLe).length - 7))
          "stress_reduction" <
        GamificationService.getAverageScore
          ((((improveEntries (15 / 2)).mergeSort dateAscLe).take
            (((improveEntries (15 / 2)).mergeSort dateAscLe).length - 7)).drop
            (((improveEntries (15 / 2)).mergeSort dateAscLe).length - 14))
          "stress_reduction" - 2) :=
  c4_improvement_badges_strict (improveEntries (15 / 2)) exStats 0 (by decide)

unseal List.merge List.mergeSort in
/-- C4 counterexample: in the 14-entry fixture `improveEntries 7` the mood
average moves from exactly 5 (previous 7 entries) to exactly 7 (last 7
entries) — a shift of exactly 2 points — yet the improvement check fails and
the mood badge stays locked: the unlock condition is strict (> 2), not the
claimed "at least 2". -/
theorem c4_counterexample :
    GamificationService.getAverageScore
        (((improveEntries 7).mergeSort dateAscLe).drop
          (((improveEntries 7).mergeSort dateAscLe).length - 7)) "mood_improvement" = 7 ∧
    GamificationService.getAverageScore
        ((((improveEntries 7).mergeSort dateAscLe).take
          (((improveEntries 7).mergeSort dateAscLe).length - 7)).drop
          (((improveEntries 7).mergeSort dateAscLe).length - 14)) "mood_improvement" = 5 ∧
    GamificationService.checkImprovement (improveEntries 7) "mood_improvement" = false ∧
    (GamificationService.updateBadge (improveEntries 7) exStats 0 exMoodBadge).isUnlocked =
      false := by
  have hsort : (improveEntries 7).mergeSort dateAscLe = improveEntries 7 := by decide
  have havg1 : GamificationService.getAverageScore ((improveEntries 7).drop 7)
      "mood_improvement" = 7 := by
    have hs : (((improveEntries 7).drop 7).map
        (GamificationService.improvementScore "mood_improvement")).filter
        (fun s => decide (0 < s)) = [7, 7, 7, 7, 7, 7, 7] := by decide
    simp only [GamificationService.getAverageScore]
    rw [hs]
    norm_num
  have havg2 : GamificationService.getAverageScore (((improveEntries 7).take 7).drop 0)
      "mood_improvement" = 5 := by
    have hs : ((((improveEntries 7).take 7).drop 0).map
        (GamificationService.improvementScore "mood_improvement")).filter
        (fun s => decide (0 < s)) = [5, 5, 5, 5, 5, 5, 5] := by decide
    simp only [GamificationService.getAverageScore]
    rw [hs]
    norm_num
  have hL : ((improveEntries 7).mergeSort dateAscLe).length = 14 := by
    rw [hsort]
    decide
  have h1 : ((improveEntries 7).mergeSort dateAscLe).drop
      (((improveEntries 7).mergeSort dateAscLe).length - 7) = (improveEntries 7).drop 7 := by
    rw [hL, hsort]
  have h2 : (((improveEntries 7).mergeSort dateAscLe).take
      (((improveEntries 7).mergeSort dateAscLe).length - 7)).drop
      (((improveEntries 7).mergeSort dateAscLe).length - 14) =
      ((improveEntries 7).take 7).drop 0 := by
    rw [hL, hsort]
  have hchk : GamificationService.checkImprovement (improveEntries 7) "mood_improvement" =
      false := by
    rw [checkImprovement_eval (improveEntries 7) (by decide)]
    rw [if_neg (by decide), h1, h2, havg1, havg2]
    norm_num
  refine ⟨by rw [h1, havg1], by rw [h2, havg2], hchk, ?_⟩
  rw [(updateBadge_improvement_eval (improveEntries 7) exStats 0).1, hchk]

/-! ### Decimal digits: arithmetic facts used by the date round-trips -/

/-- Digit characters have code points 48..57. -/
theorem isDigit_toNat_bounds (c : Char) (h : c.isDigit = true) :
    48 ≤ c.toNat ∧ c.toNat ≤ 57 := by
  simp only [Char.isDigit, Bool.and_eq_true, decide_eq_true_eq, ge_iff_le] at h
  obtain ⟨h1, h2⟩ := h
  rw [UInt32.le_def] at h1 h2
  exact ⟨h1, h2⟩

/-- A digit character is determined by its digit value. -/
theorem char_eq_of_digitVal (c c' : Char) (h : c.isDigit = true) (h' : c'.isDigit = true)
    (hv : digitVal c = digitVal c') : c = c' := by
  obtain ⟨a1, a2⟩ := isDigit_toNat_bounds c h
  obtain ⟨b1, b2⟩ := isDigit_toNat_bounds c' h'
  unfold digitVal at hv
  have : c.toNat = c'.toNat := by omega
  exact Char.ext (UInt32.ext this)

/-- Digit values of digit characters are below 10. -/
theorem digitVal_lt_ten (c : Char) (h : c.isDigit = true) : digitVal c < 10 := by
  obtain ⟨a1, a2⟩ := isDigit_toNat_bounds c h
  unfold digitVal
  omega

/-- Digit value of `Nat.digitChar` below 10. -/
theorem digitVal_digitChar (d : ℕ) (h : d < 10) : digitVal (Nat.digitChar d) = d := by
  interval_cases d <;> decide

/-- `Nat.digitChar` of a value below 10 is a digit character. -/
theorem digitChar_isDigit (d : ℕ) (h : d < 10) : (Nat.digitChar d).isDigit = true := by
  interval_cases d <;> decide

/-- Running the digit fold from an arbitrary accumulator. -/
theorem foldVal_general (l : List Char) (a : ℕ) :
    l.foldl (fun a c => 10 * a + digitVal c) a = a * 10 ^ l.length + foldVal l := by
  induction l generalizing a with
  | nil => simp [foldVal]
  | cons c l ih =>
    simp only [List.foldl_cons, List.length_cons]
    rw [ih (10 * a + digitVal c)]
    have h2 : foldVal (c :: l) = (10 * 0 + digitVal c) * 10 ^ l.length + foldVal l := by
      simp only [foldVal, List.foldl_cons]
      rw [ih (10 * 0 + digitVal c)]
      rfl
    rw [h2]
    ring

/-- Peeling the leading digit off a digit-string value. -/
theorem foldVal_cons (c : Char) (l : List Char) :
    foldVal (c :: l) = digitVal c * 10 ^ l.length + foldVal l := by
  simp only [foldVal, List.foldl_cons]
  rw [foldVal_general]
  simp only [foldVal]
  ring

/-- Digit strings denote values below `10 ^ length`. -/
theorem foldVal_lt (l : List Char) (h : l.all Char.isDigit = true) :
    foldVal l < 10 ^ l.length := by
  induction l with
  | nil => simp [foldVal]
  | cons c l ih =>
    simp only [List.all_cons, Bool.and_eq_true] at h
    have hc := digitVal_lt_ten c h.1
    have hl := ih h.2
    rw [foldVal_cons, List.length_cons, pow_succ]
    nlinarith

/-- Digit strings of equal width and equal value are equal. -/
theorem digit_string_inj (l1 l2 : List Char) (h1 : l1.all Char.isDigit = true)
    (h2 : l2.all Char.isDigit = true) (hlen : l1.length = l2.length)
    (hv : foldVal l1 = foldVal l2) : l1 = l2 := by
  induction l1 generalizing l2 with
  | nil =>
    cases l2 with
    | nil => rfl
    | cons c l => simp at hlen
  | cons c l ih =>
    cases l2 with
    | nil => simp at hlen
    | cons c' l' =>
      simp only [List.all_cons, Bool.and_eq_true] at h1 h2
      simp only [List.length_cons] at hlen
      have hlen' : l.length = l'.length := by omega
      rw [foldVal_cons, foldVal_cons, hlen'] at hv
      have hb1 := foldVal_lt l h1.2
      have hb2 := foldVal_lt l' h2.2
      rw [hlen'] at hb1
      have hdc : digitVal c = digitVal c' := by
        rcases lt_trichotomy (digitVal c) (digitVal c') with hab | hab | hab
        · exfalso
          have hm : (digitVal c + 1) * 10 ^ l'.length ≤ digitVal c' * 10 ^ l'.length :=
            Nat.mul_le_mul_right _ (by omega)
          rw [add_mul, one_mul] at hm
          linarith
        · exact hab
        · exfalso
          have hm : (digitVal c' + 1) * 10 ^ l'.length ≤ digitVal c * 10 ^ l'.length :=
            Nat.mul_le_mul_right _ (by omega)
          rw [add_mul, one_mul] at hm
          linarith
      have hfv : foldVal l = foldVal l' := by
        rw [hdc] at hv
        exact Nat.add_left_cancel hv
      rw [char_eq_of_digitVal c c' h1.1 h2.1 hdc, ih l' h1.2 h2.2 hlen' hfv]

/-- Fuel irrelevance for the digit worker. -/
theorem natDigitsAux_fuel (n : ℕ) : ∀ f1 f2 : ℕ, n < f1 → n < f2 →
    natDigitsAux f1 n = natDigitsAux f2 n := by
  induction n using Nat.strong_induction_on with
  | _ n ih =>
    intro f1 f2 hf1 hf2
    cases f1 with
    | zero => omega
    | succ a =>
      cases f2 with
      | zero => omega
      | succ b =>
        simp only [natDigitsAux]
        split
        · rfl
        · have hd : n / 10 < n := Nat.div_lt_self (by omega) (by omega)
          rw [ih (n / 10) hd a b (by omega) (by omega)]

/-- Unfolding equation for `natDigits`. -/
theorem natDigits_eq (n : ℕ) :
    natDigits n =
      if n < 10 then [Nat.digitChar n] else natDigits (n / 10) ++ [Nat.digitChar (n % 10)] := by
  by_cases h : n < 10
  · rw [if_pos h]
    show (if n < 10 then [Nat.digitChar n]
      else natDigitsAux n (n / 10) ++ [Nat.digitChar (n % 10)]) = _
    rw [if_pos h]
  · rw [if_neg h]
    show (if n < 10 then [Nat.digitChar n]
      else natDigitsAux n (n / 10) ++ [Nat.digitChar (n % 10)]) = _
    rw [if_neg h]
    have hd : n / 10 < n := Nat.div_lt_self (by omega) (by omega)
    rw [natDigitsAux_fuel (n / 10) n (n / 10 + 1) hd (by omega)]
    rfl

/-- `natDigits` is never empty. -/
theorem natDigits_ne_nil (n : ℕ) : natDigits n ≠ [] := by
  induction n using Nat.strong_induction_on with
  | _ n ih =>
    rw [natDigits_eq]
    split
    · simp
    · simp

/-- `natDigits` produces digit characters only. -/
theorem natDigits_all_digits (n : ℕ) : (natDigits n).all Char.isDigit = true := by
  induction n using Nat.strong_induction_on with
  | _ n ih =>
    rw [natDigits_eq]
    split
    · simp only [List.all_cons, List.all_nil, Bool.and_true]
      exact digitChar_isDigit n (by omega)
    · rw [List.all_append]
      have hd : n / 10 < n := Nat.div_lt_self (by omega) (by omega)
      rw [ih (n / 10) hd]
      simp only [List.all_cons, List.all_nil, Bool.and_true, Bool.true_and]
      exact digitChar_isDigit (n % 10) (by omega)

/-- `natDigits` round-trips through the digit fold. -/
theorem foldVal_natDigits (n : ℕ) : foldVal (natDigits n) = n := by
  induction n using Nat.strong_induction_on with
  | _ n ih =>
    rw [natDigits_eq]
    split
    · rw [show foldVal [Nat.digitChar n] = digitVal (Nat.digitChar n) by
        simp [foldVal]]
      exact digitVal_digitChar n (by omega)
    · have hd : n / 10 < n := Nat.div_lt_self (by omega) (by omega)
      simp only [foldVal, List.foldl_append, List.foldl_cons, List.foldl_nil]
      have : List.foldl (fun a c => 10 * a + digitVal c) 0 (natDigits (n / 10)) = n / 10 :=
        ih (n / 10) hd
      rw [this, digitVal_digitChar (n % 10) (by omega)]
      omega

/-- Leading zeros do not change the digit-fold value. -/
theorem foldVal_replicate_zero (k : ℕ) (l : List Char) :
    foldVal (List.replicate k '0' ++ l) = foldVal l := by
  induction k with
  | zero => simp
  | succ k ih =>
    rw [List.replicate_succ, List.cons_append]
    simp only [foldVal, List.foldl_cons] at *
    have : (10 * 0 + digitVal '0') = 0 := by decide
    rw [this]
    exact ih

/-- Zero-padded digits parse back to the original value. -/
theorem digitsToNat?_padDigits (w n : ℕ) : digitsToNat? (padDigits w n) = some n := by
  unfold digitsToNat? padDigits
  have hne : (List.replicate (w - (natDigits n).length) '0' ++ natDigits n).isEmpty = false := by
    rw [List.isEmpty_eq_false_iff_exists_mem]
    obtain ⟨c, hc⟩ := List.exists_mem_of_ne_nil (natDigits n) (natDigits_ne_nil n)
    exact ⟨c, List.mem_append_right _ hc⟩
  have hall : (List.replicate (w - (natDigits n).length) '0' ++ natDigits n).all
      Char.isDigit = true := by
    rw [List.all_append, natDigits_all_digits, Bool.and_true]
    rw [List.all_eq_true]
    intro c hc
    rw [List.eq_of_mem_replicate hc]
    decide
  rw [hne, hall]
  simp only [Bool.not_false, Bool.true_and, if_pos]
  rw [foldVal_replicate_zero, foldVal_natDigits]

/-- All-digit strings make `digitsToNat?` succeed with the digit-fold value. -/
theorem digitsToNat?_of_digits (l : List Char) (hne : l ≠ [])
    (hall : l.all Char.isDigit = true) : digitsToNat? l = some (foldVal l) := by
  unfold digitsToNat?
  have : l.isEmpty = false := by
    cases l
    · exact absurd rfl hne
    · rfl
  rw [this, hall]
  rfl

/-! ### Splitting lemmas -/

/-- `splitSep` never returns the empty list of chunks. -/
theorem splitSep_ne_nil (sep : Char) (l : List Char) : splitSep sep l ≠ [] := by
  cases l with
  | nil => simp [splitSep]
  | cons c cs =>
    simp only [splitSep]
    split
    · simp
    · split <;> simp

/-- Joining the chunks of a split restores the original list. -/
theorem joinSep_splitSep (sep : Char) (l : List Char) :
    joinSep sep (splitSep sep l) = l := by
  induction l with
  | nil => rfl
  | cons c cs ih =>
    simp only [splitSep]
    by_cases hc : c = sep
    · rw [if_pos hc]
      rcases hsp : splitSep sep cs with _ | ⟨t, ts⟩
      · exact absurd hsp (splitSep_ne_nil sep cs)
      · rw [hsp] at ih
        subst hc
        simp only [joinSep, List.nil_append]
        rw [ih]
    · rw [if_neg hc]
      rcases hsp : splitSep sep cs with _ | ⟨t, ts⟩
      · exact absurd hsp (splitSep_ne_nil sep cs)
      · rw [hsp] at ih
        cases ts with
        | nil =>
          simp only [joinSep] at ih ⊢
          rw [ih]
        | cons t2 ts2 =>
          simp only [joinSep, List.cons_append] at ih ⊢
          rw [← ih]

/-- A chunk without the separator splits into itself. -/
theorem splitSep_no_sep (sep : Char) (a : List Char) (h : ∀ c ∈ a, c ≠ sep) :
    splitSep sep a = [a] := by
  induction a with
  | nil => rfl
  | cons c cs ih =>
    simp only [splitSep]
    rw [if_neg (h c (List.mem_cons_self c cs))]
    rw [ih fun x hx => h x (List.mem_cons_of_mem c hx)]

/-- Splitting a list that starts with a separator-free chunk followed by a
separator peels off exactly that chunk. -/
theorem splitSep_append (sep : Char) (a rest : List Char) (h : ∀ c ∈ a, c ≠ sep) :
    splitSep sep (a ++ sep :: rest) = a :: splitSep sep rest := by
  induction a with
  | nil =>
    simp [splitSep]
  | cons c cs ih =>
    simp only [List.cons_append, splitSep]
    rw [if_neg (h c (List.mem_cons_self c cs))]
    simp only [List.append_eq]
    rw [ih fun x hx => h x (List.mem_cons_of_mem c hx)]

/-! ### Calendar lemmas -/

/-- Years have at least 365 days. -/
theorem daysInYear_ge (y : ℕ) : 365 ≤ daysInYear y := by
  unfold daysInYear
  split <;> omega

/-- Months are nonempty. -/
theorem daysInMonth_pos (y m : ℕ) : 0 < daysInMonth y m := by
  unfold daysInMonth
  repeat' split
  all_goals omega

/-- Fuel irrelevance for the year-peeling worker. -/
theorem splitYearAux_fuel (d : ℕ) : ∀ f1 f2 y : ℕ, d < f1 → d < f2 →
    splitYearAux f1 y d = splitYearAux f2 y d := by
  induction d using Nat.strong_induction_on with
  | _ d ih =>
    intro f1 f2 y hf1 hf2
    cases f1 with
    | zero => omega
    | succ a =>
      cases f2 with
      | zero => omega
      | succ b =>
        simp only [splitYearAux]
        split
        · rfl
        · have hge := daysInYear_ge y
          have hd : d - daysInYear y < d := by omega
          rw [ih (d - daysInYear y) hd a b (y + 1) (by omega) (by omega)]

/-- Unfolding equation for `splitYear`. -/
theorem splitYear_eq (y d : ℕ) :
    splitYear y d =
      if d < daysInYear y then (y, d) else splitYear (y + 1) (d - daysInYear y) := by
  by_cases h : d < daysInYear y
  · rw [if_pos h]
    show (if d < daysInYear y then (y, d) else splitYearAux d (y + 1) (d - daysInYear y)) = _
    rw [if_pos h]
  · rw [if_neg h]
    show (if d < daysInYear y then (y, d) else splitYearAux d (y + 1) (d - daysInYear y)) = _
    rw [if_neg h]
    have hge := daysInYear_ge y
    exact splitYearAux_fuel (d - daysInYear y) d (d - daysInYear y + 1) (y + 1)
      (by omega) (by omega)

/-- Specification of `splitYear`: it preserves the total day count, lands
inside its year, and never moves backward. -/
theorem splitYear_spec (d : ℕ) : ∀ y : ℕ,
    daysBeforeYear (splitYear y d).1 + (splitYear y d).2 = daysBeforeYear y + d ∧
    (splitYear y d).2 < daysInYear (splitYear y d).1 ∧ y ≤ (splitYear y d).1 := by
  induction d using Nat.strong_induction_on with
  | _ d ih =>
    intro y
    rw [splitYear_eq]
    by_cases h : d < daysInYear y
    · rw [if_pos h]
      exact ⟨rfl, h, le_refl y⟩
    · rw [if_neg h]
      have hge := daysInYear_ge y
      have hd : d - daysInYear y < d := by omega
      obtain ⟨h1, h2, h3⟩ := ih (d - daysInYear y) hd (y + 1)
      refine ⟨?_, h2, by omega⟩
      rw [h1]
      show daysBeforeYear y + daysInYear y + (d - daysInYear y) = _
      omega

/-- Fuel irrelevance for the month-peeling worker. -/
theorem splitMonthAux_fuel (doy : ℕ) : ∀ f1 f2 y m : ℕ, doy < f1 → doy < f2 →
    splitMonthAux f1 y m doy = splitMonthAux f2 y m doy := by
  induction doy using Nat.strong_induction_on with
  | _ doy ih =>
    intro f1 f2 y m hf1 hf2
    cases f1 with
    | zero => omega
    | succ a =>
      cases f2 with
      | zero => omega
      | succ b =>
        simp only [splitMonthAux]
        split
        · rfl
        · have hpos := daysInMonth_pos y m
          have hd : doy - daysInMonth y m < doy := by omega
          rw [ih (doy - daysInMonth y m) hd a b y (m + 1) (by omega) (by omega)]

/-- Unfolding equation for `splitMonth`. -/
theorem splitMonth_eq (y m doy : ℕ) :
    splitMonth y m doy =
      if doy < daysInMonth y m then (m, doy)
      else splitMonth y (m + 1) (doy - daysInMonth y m) := by
  by_cases h : doy < daysInMonth y m
  · rw [if_pos h]
    show (if doy < daysInMonth y m then (m, doy)
      else splitMonthAux doy y (m + 1) (doy - daysInMonth y m)) = _
    rw [if_pos h]
  · rw [if_neg h]
    show (if doy < daysInMonth y m then (m, doy)
      else splitMonthAux doy y (m + 1) (doy - daysInMonth y m)) = _
    rw [if_neg h]
    have hpos := daysInMonth_pos y m
    exact splitMonthAux_fuel (doy - daysInMonth y m) doy (doy - daysInMonth y m + 1) y (m + 1)
      (by omega) (by omega)

/-- Stepping the month offset table. -/
theorem daysBeforeMonth_succ (y m : ℕ) (h : 1 ≤ m) :
    daysBeforeMonth y (m + 1) = daysBeforeMonth y m + daysInMonth y m := by
  cases m with
  | zero => omega
  | succ k => rfl

/-- The month offsets exhaust the year at month 13. -/
theorem daysBeforeMonth_13 (y : ℕ) : daysBeforeMonth y 13 = daysInYear y := by
  cases h : isLeap y <;>
    simp [daysBeforeMonth, daysInMonth, daysInYear, h]

/-- Month offsets are monotone. -/
theorem daysBeforeMonth_mono (y : ℕ) {m m' : ℕ} (h : m ≤ m') :
    daysBeforeMonth y m ≤ daysBeforeMonth y m' := by
  induction m' with
  | zero =>
    rw [Nat.le_zero.mp h]
  | succ k ih =>
    rcases Nat.lt_or_ge m (k + 1) with hk | hk
    · have hle := ih (by omega)
      cases k with
      | zero =>
        interval_cases m
        all_goals simp [daysBeforeMonth]
      | succ j =>
        have : daysBeforeMonth y (j + 1 + 1) = daysBeforeMonth y (j + 1) + daysInMonth y (j + 1) :=
          daysBeforeMonth_succ y (j + 1) (by omega)
        omega
    · have : m = k + 1 := by omega
      rw [this]

/-- Specification of `splitMonth` from month `m`, provided the offset stays
within the year. -/
theorem splitMonth_spec (doy : ℕ) : ∀ y m : ℕ, 1 ≤ m →
    daysBeforeMonth y m + doy < daysInYear y →
    daysBeforeMonth y (splitMonth y m doy).1 + (splitMonth y m doy).2 =
      daysBeforeMonth y m + doy ∧
    (splitMonth y m doy).2 < daysInMonth y (splitMonth y m doy).1 ∧
    1 ≤ (splitMonth y m doy).1 ∧ (splitMonth y m doy).1 ≤ 12 := by
  induction doy using Nat.strong_induction_on with
  | _ doy ih =>
    intro y m hm hin
    rw [splitMonth_eq]
    by_cases h : doy < daysInMonth y m
    · rw [if_pos h]
      refine ⟨rfl, h, hm, ?_⟩
      by_contra hgt
      have h13 : daysBeforeMonth y 13 ≤ daysBeforeMonth y m := daysBeforeMonth_mono y (by omega)
      rw [daysBeforeMonth_13] at h13
      omega
    · rw [if_neg h]
      have hpos := daysInMonth_pos y m
      have hd : doy - daysInMonth y m < doy := by omega
      have hsucc := daysBeforeMonth_succ y m hm
      obtain ⟨h1, h2, h3, h4⟩ := ih (doy - daysInMonth y m) hd y (m + 1) (by omega) (by omega)
      exact ⟨by omega, h2, by omega, h4⟩

/-- Specification of `civilFromDayNumber`: it produces a valid calendar date
whose `dayNumber` is the input. -/
theorem civilFromDayNumber_spec (d : ℕ) :
    dayNumber (civilFromDayNumber d).1 (civilFromDayNumber d).2.1 (civilFromDayNumber d).2.2 =
      d ∧
    1 ≤ (civilFromDayNumber d).2.1 ∧ (civilFromDayNumber d).2.1 ≤ 12 ∧
    1 ≤ (civilFromDayNumber d).2.2 ∧
    (civilFromDayNumber d).2.2 ≤
      daysInMonth (civilFromDayNumber d).1 (civilFromDayNumber d).2.1 := by
  obtain ⟨hy1, hy2, _⟩ := splitYear_spec d 0
  have hin : daysBeforeMonth (splitYear 0 d).1 1 + (splitYear 0 d).2 <
      daysInYear (splitYear 0 d).1 := by
    show 0 + (splitYear 0 d).2 < _
    omega
  obtain ⟨hm1, hm2, hm3, hm4⟩ := splitMonth_spec (splitYear 0 d).2 (splitYear 0 d).1 1
    (le_refl 1) hin
  unfold civilFromDayNumber
  simp only []
  refine ⟨?_, hm3, hm4, by omega, by omega⟩
  unfold dayNumber
  have h0 : daysBeforeMonth (splitYear 0 d).1 1 = 0 := rfl
  have hdb0 : daysBeforeYear 0 = 0 := rfl
  omega

/-- Year offsets are monotone. -/
theorem daysBeforeYear_mono {y y' : ℕ} (h : y ≤ y') :
    daysBeforeYear y ≤ daysBeforeYear y' := by
  induction y' with
  | zero => rw [Nat.le_zero.mp h]
  | succ k ih =>
    rcases Nat.lt_or_ge y (k + 1) with hk | hk
    · have := ih (by omega)
      show _ ≤ daysBeforeYear k + daysInYear k
      omega
    · have : y = k + 1 := by omega
      rw [this]

/-- A valid date's day number falls before the next year begins. -/
theorem dayNumber_lt_next (y m d : ℕ) (hm1 : 1 ≤ m) (hm2 : m ≤ 12) (hd1 : 1 ≤ d)
    (hd2 : d ≤ daysInMonth y m) : dayNumber y m d < daysBeforeYear (y + 1) := by
  unfold dayNumber
  have hsucc := daysBeforeMonth_succ y m hm1
  have h13 : daysBeforeMonth y (m + 1) ≤ daysBeforeMonth y 13 := daysBeforeMonth_mono y (by omega)
  rw [daysBeforeMonth_13] at h13
  show _ < daysBeforeYear y + daysInYear y
  omega

/-- Valid dates are determined by their day numbers. -/
theorem dayNumber_inj (y m d y' m' d' : ℕ) (hm1 : 1 ≤ m) (hm2 : m ≤ 12) (hd1 : 1 ≤ d)
    (hd2 : d ≤ daysInMonth y m) (hm1' : 1 ≤ m') (hm2' : m' ≤ 12) (hd1' : 1 ≤ d')
    (hd2' : d' ≤ daysInMonth y' m') (heq : dayNumber y m d = dayNumber y' m' d') :
    y = y' ∧ m = m' ∧ d = d' := by
  have hy : y = y' := by
    by_contra hne
    rcases Nat.lt_or_ge y y' with hlt | hge
    · have h1 := dayNumber_lt_next y m d hm1 hm2 hd1 hd2
      have h2 : daysBeforeYear (y + 1) ≤ daysBeforeYear y' := daysBeforeYear_mono (by omega)
      have h3 : daysBeforeYear y' ≤ dayNumber y' m' d' := by
        unfold dayNumber
        omega
      omega
    · have hlt' : y' < y := by omega
      have h1 := dayNumber_lt_next y' m' d' hm1' hm2' hd1' hd2'
      have h2 : daysBeforeYear (y' + 1) ≤ daysBeforeYear y := daysBeforeYear_mono (by omega)
      have h3 : daysBeforeYear y ≤ dayNumber y m d := by
        unfold dayNumber
        omega
      omega
  subst hy
  have hmm : m = m' := by
    by_contra hne
    unfold dayNumber at heq
    rcases Nat.lt_or_ge m m' with hlt | hge
    · have hsucc := daysBeforeMonth_succ y m hm1
      have hmono : daysBeforeMonth y (m + 1) ≤ daysBeforeMonth y m' :=
        daysBeforeMonth_mono y (by omega)
      omega
    · have hlt' : m' < m := by omega
      have hsucc := daysBeforeMonth_succ y m' hm1'
      have hmono : daysBeforeMonth y (m' + 1) ≤ daysBeforeMonth y m :=
        daysBeforeMonth_mono y (by omega)
      omega
  subst hmm
  unfold dayNumber at heq
  exact ⟨rfl, rfl, by omega⟩

/-! ### Parsing and formatting of dates -/

/-- Digit characters are not the separator. -/
theorem digit_ne_dash (c : Char) (h : c.isDigit = true) : c ≠ '-' := by
  intro hc
  obtain ⟨h1, _⟩ := isDigit_toNat_bounds c h
  rw [hc] at h1
  exact absurd h1 (by decide)

/-- Padded digit strings are all digits. -/
theorem padDigits_all_digits (w n : ℕ) : (padDigits w n).all Char.isDigit = true := by
  unfold padDigits
  rw [List.all_append, Bool.and_eq_true]
  constructor
  · rw [List.all_eq_true]
    intro c hc
    rw [List.eq_of_mem_replicate hc]
    decide
  · exact natDigits_all_digits n

/-- Padded digit strings contain no separator. -/
theorem padDigits_no_dash (w n : ℕ) : ∀ c ∈ padDigits w n, c ≠ '-' := by
  intro c hc
  have hall := padDigits_all_digits w n
  rw [List.all_eq_true] at hall
  exact digit_ne_dash c (hall c hc)

/-- Unpacking a well-formed date string into its three components. -/
theorem wellFormedDate_elim (s : String) (h : wellFormedDate s = true) :
    ∃ ys ms ds : List Char, splitSep '-' s.data = [ys, ms, ds] ∧
      ys.length = 4 ∧ ms.length = 2 ∧ ds.length = 2 ∧
      ys.all Char.isDigit = true ∧ ms.all Char.isDigit = true ∧ ds.all Char.isDigit = true ∧
      1 ≤ foldVal ms ∧ foldVal ms ≤ 12 ∧ 1 ≤ foldVal ds ∧
      foldVal ds ≤ daysInMonth (foldVal ys) (foldVal ms) := by
  unfold wellFormedDate at h
  split at h
  · next ys ms ds heq =>
    simp only [Bool.and_eq_true, beq_iff_eq, decide_eq_true_eq] at h
    exact ⟨ys, ms, ds, heq, h.1.1.1.1.1.1.1.1.1, h.1.1.1.1.1.1.1.1.2, h.1.1.1.1.1.1.1.2,
      h.1.1.1.1.1.1.2, h.1.1.1.1.1.2, h.1.1.1.1.2, h.1.1.1.2, h.1.1.2, h.1.2, h.2⟩
  · exact absurd h (by simp)

/-- A well-formed date string parses to the day number of its components. -/
theorem parseDate_of_wellFormed (s : String) (h : wellFormedDate s = true) :
    ∃ ys ms ds : List Char, splitSep '-' s.data = [ys, ms, ds] ∧
      ys.length = 4 ∧ ms.length = 2 ∧ ds.length = 2 ∧
      ys.all Char.isDigit = true ∧ ms.all Char.isDigit = true ∧ ds.all Char.isDigit = true ∧
      1 ≤ foldVal ms ∧ foldVal ms ≤ 12 ∧ 1 ≤ foldVal ds ∧
      foldVal ds ≤ daysInMonth (foldVal ys) (foldVal ms) ∧
      parseDate s = some (dayNumber (foldVal ys) (foldVal ms) (foldVal ds)) := by
  obtain ⟨ys, ms, ds, heq, hy, hm, hd, hyd, hmd, hdd, hm1, hm2, hd1, hd2⟩ :=
    wellFormedDate_elim s h
  refine ⟨ys, ms, ds, heq, hy, hm, hd, hyd, hmd, hdd, hm1, hm2, hd1, hd2, ?_⟩
  unfold parseDate
  rw [heq]
  have hysne : ys ≠ [] := by intro hn; rw [hn] at hy; simp at hy
  have hmsne : ms ≠ [] := by intro hn; rw [hn] at hm; simp at hm
  have hdsne : ds ≠ [] := by intro hn; rw [hn] at hd; simp at hd
  rw [List.map_cons, List.map_cons, List.map_cons, List.map_nil,
    digitsToNat?_of_digits ys hysne hyd, digitsToNat?_of_digits ms hmsne hmd,
    digitsToNat?_of_digits ds hdsne hdd]
  exact if_pos ⟨hm1, hm2, hd1, hd2⟩

/-- Well-formed date strings with the same time value are equal. -/
theorem parseDate_inj (a b : String) (ha : wellFormedDate a = true)
    (hb : wellFormedDate b = true) (hab : dv a = dv b) : a = b := by
  obtain ⟨ys, ms, ds, heq, hy, hm, hd, hyd, hmd, hdd, hm1, hm2, hd1, hd2, hpa⟩ :=
    parseDate_of_wellFormed a ha
  obtain ⟨ys', ms', ds', heq', hy', hm', hd', hyd', hmd', hdd', hm1', hm2', hd1', hd2', hpb⟩ :=
    parseDate_of_wellFormed b hb
  unfold dv at hab
  rw [hpa, hpb] at hab
  simp only [Option.getD_some] at hab
  obtain ⟨ey, em, ed⟩ := dayNumber_inj _ _ _ _ _ _ hm1 hm2 hd1 hd2 hm1' hm2' hd1' hd2' hab
  have h1 : ys = ys' := digit_string_inj ys ys' hyd hyd' (by omega) ey
  have h2 : ms = ms' := digit_string_inj ms ms' hmd hmd' (by omega) em
  have h3 : ds = ds' := digit_string_inj ds ds' hdd hdd' (by omega) ed
  have hdata : a.data = b.data := by
    rw [← joinSep_splitSep '-' a.data, ← joinSep_splitSep '-' b.data, heq, heq', h1, h2, h3]
  cases a
  cases b
  exact congrArg String.mk hdata

/-- Round trip: formatting a nonnegative day number whose year fits in four
digits and parsing the result recovers the day number. -/
theorem parseDate_formatDate (n : ℕ) (h : (civilFromDayNumber n).1 ≤ 9999) :
    parseDate (formatDate (n : ℤ)) = some n := by
  obtain ⟨hdn, hm1, hm2, hd1, hd2⟩ := civilFromDayNumber_spec n
  have hfmt : formatDate (n : ℤ) =
      String.mk (padDigits 4 (civilFromDayNumber n).1 ++
        '-' :: padDigits 2 (civilFromDayNumber n).2.1 ++
        '-' :: padDigits 2 (civilFromDayNumber n).2.2) := by
    unfold formatDate
    rw [if_pos (by exact_mod_cast Int.ofNat_nonneg n)]
    simp only [Int.toNat_natCast]
    rw [if_pos h]
  rw [hfmt]
  have hsplit : splitSep '-' (String.mk (padDigits 4 (civilFromDayNumber n).1 ++
      '-' :: padDigits 2 (civilFromDayNumber n).2.1 ++
      '-' :: padDigits 2 (civilFromDayNumber n).2.2)).data =
      [padDigits 4 (civilFromDayNumber n).1, padDigits 2 (civilFromDayNumber n).2.1,
        padDigits 2 (civilFromDayNumber n).2.2] := by
    show splitSep '-' (padDigits 4 (civilFromDayNumber n).1 ++
      '-' :: padDigits 2 (civilFromDayNumber n).2.1 ++
      '-' :: padDigits 2 (civilFromDayNumber n).2.2) = _
    rw [List.append_assoc, List.cons_append]
    rw [splitSep_append '-' _ _ (padDigits_no_dash 4 _),
      splitSep_append '-' _ _ (padDigits_no_dash 2 _),
      splitSep_no_sep '-' _ (padDigits_no_dash 2 _)]
  unfold parseDate
  rw [hsplit, List.map_cons, List.map_cons, List.map_cons, List.map_nil,
    digitsToNat?_padDigits, digitsToNat?_padDigits, digitsToNat?_padDigits]
  show (if 1 ≤ (civilFromDayNumber n).2.1 ∧ (civilFromDayNumber n).2.1 ≤ 12 ∧
      1 ≤ (civilFromDayNumber n).2.2 ∧
      (civilFromDayNumber n).2.2 ≤
        daysInMonth (civilFromDayNumber n).1 (civilFromDayNumber n).2.1 then
    some (dayNumber (civilFromDayNumber n).1 (civilFromDayNumber n).2.1
      (civilFromDayNumber n).2.2) else none) = some n
  rw [if_pos ⟨hm1, hm2, hd1, hd2⟩, hdn]

/-- A formatted day number that passes the well-formedness check is
nonnegative with a four-digit year. -/
theorem wellFormedDate_formatDate (z : ℤ) (h : wellFormedDate (formatDate z) = true) :
    0 ≤ z ∧ (civilFromDayNumber z.toNat).1 ≤ 9999 := by
  obtain ⟨ys, ms, ds, heq, hy, hm, hd, hyd, _⟩ := wellFormedDate_elim _ h
  rcases lt_or_ge z 0 with hneg | hpos
  · exfalso
    have hform : formatDate z = String.mk ('-' :: natDigits (-z).toNat) := by
      unfold formatDate
      rw [if_neg (by omega)]
    rw [hform] at heq
    have hsplit : splitSep '-' ('-' :: natDigits (-z).toNat) =
        [] :: splitSep '-' (natDigits (-z).toNat) := by
      simp [splitSep]
    have heqd : ('-' :: natDigits (-z).toNat : List Char) =
        (String.mk ('-' :: natDigits (-z).toNat)).data := rfl
    rw [← heqd, hsplit] at heq
    have hys : ys = [] := (List.cons.injEq _ _ _ _ ▸ heq).1.symm
    rw [hys] at hy
    simp at hy
  · refine ⟨hpos, ?_⟩
    by_contra hbig
    have hform : formatDate z = String.mk ('+' :: natDigits (civilFromDayNumber z.toNat).1 ++
        '-' :: padDigits 2 (civilFromDayNumber z.toNat).2.1 ++
        '-' :: padDigits 2 (civilFromDayNumber z.toNat).2.2) := by
      unfold formatDate
      rw [if_pos hpos, if_neg (by omega)]
    rw [hform] at heq
    have hnodash : ∀ c ∈ ('+' :: natDigits (civilFromDayNumber z.toNat).1 : List Char),
        c ≠ '-' := by
      intro c hc
      rcases List.mem_cons.mp hc with hc | hc
      · rw [hc]; decide
      · have hall := natDigits_all_digits (civilFromDayNumber z.toNat).1
        rw [List.all_eq_true] at hall
        exact digit_ne_dash c (hall c hc)
    have heqd : (String.mk ('+' :: natDigits (civilFromDayNumber z.toNat).1 ++
        '-' :: padDigits 2 (civilFromDayNumber z.toNat).2.1 ++
        '-' :: padDigits 2 (civilFromDayNumber z.toNat).2.2)).data =
        ('+' :: natDigits (civilFromDayNumber z.toNat).1) ++
        '-' :: (padDigits 2 (civilFromDayNumber z.toNat).2.1 ++
        '-' :: padDigits 2 (civilFromDayNumber z.toNat).2.2) := by
      simp
    rw [heqd, splitSep_append '-' _ _ hnodash] at heq
    have hys : ys = '+' :: natDigits (civilFromDayNumber z.toNat).1 :=
      ((List.cons.injEq _ _ _ _ ▸ heq).1).symm
    rw [hys, List.all_cons, Bool.and_eq_true] at hyd
    exact absurd hyd.1 (by decide)

/-- A well-formed date string parses to its own sort key. -/
theorem parseDate_dv (s : String) (h : wellFormedDate s = true) :
    parseDate s = some (dv s) := by
  obtain ⟨ys, ms, ds, _, _, _, _, _, _, _, _, _, _, _, hp⟩ := parseDate_of_wellFormed s h
  rw [hp]
  unfold dv
  rw [hp]
  rfl

/-! ### Streak-loop lemmas -/

/-- The longest-streak accumulator never decreases the running maximum. -/
theorem longestFrom_ge_longest (rest : List String) : ∀ (cur : String) (longest temp : ℕ),
    longest ≤ GamificationService.longestFrom cur rest longest temp := by
  induction rest with
  | nil =>
    intro cur longest temp
    exact le_max_left _ _
  | cons next rest ih =>
    intro cur longest temp
    show longest ≤ if daysDiff cur next = some 1 then GamificationService.longestFrom next rest longest (temp + 1)
      else GamificationService.longestFrom next rest (max longest (temp + 1)) 0
    split
    · exact ih next longest (temp + 1)
    · exact le_trans (le_max_left _ _) (ih next (max longest (temp + 1)) 0)

/-- The longest-streak loop counts at least the open run. -/
theorem longestFrom_ge_temp (rest : List String) : ∀ (cur : String) (longest temp : ℕ),
    temp + 1 ≤ GamificationService.longestFrom cur rest longest temp := by
  induction rest with
  | nil =>
    intro cur longest temp
    exact le_max_right _ _
  | cons next rest ih =>
    intro cur longest temp
    show temp + 1 ≤ if daysDiff cur next = some 1 then GamificationService.longestFrom next rest longest (temp + 1)
      else GamificationService.longestFrom next rest (max longest (temp + 1)) 0
    split
    · exact le_trans (by omega) (ih next longest (temp + 1))
    · exact le_trans (le_max_right _ _) (longestFrom_ge_longest rest next (max longest (temp + 1)) 0)

/-- Core run lemma: on a strictly descending list of parseable dates, a run of
`k` consecutive predecessors of the head value forces the loop to count at
least `temp + 1 + k`. -/
theorem longestFrom_run (rest : List String) : ∀ (cur : String) (longest temp k : ℕ),
    (cur :: rest).Pairwise (fun a b => dv b < dv a) →
    (∀ x ∈ cur :: rest, parseDate x = some (dv x)) →
    (∀ i : ℕ, 1 ≤ i → i ≤ k → ∃ x ∈ cur :: rest, dv x + i = dv cur) →
    temp + 1 + k ≤ GamificationService.longestFrom cur rest longest temp := by
  induction rest with
  | nil =>
    intro cur longest temp k hpw hps hrun
    cases k with
    | zero =>
      have := le_max_right longest (temp + 1)
      show temp + 1 + 0 ≤ max longest (temp + 1)
      omega
    | succ k =>
      obtain ⟨x, hx, hvx⟩ := hrun 1 (by omega) (by omega)
      rw [List.mem_singleton] at hx
      rw [hx] at hvx
      omega
  | cons next rest ih =>
    intro cur longest temp k hpw hps hrun
    cases k with
    | zero =>
      have := longestFrom_ge_temp (next :: rest) cur longest temp
      omega
    | succ k =>
      obtain ⟨x, hx, hvx⟩ := hrun 1 (by omega) (by omega)
      rw [List.pairwise_cons] at hpw
      obtain ⟨hcur_gt, hpw'⟩ := hpw
      have hnext_gt := (List.pairwise_cons.mp hpw').1
      have hxeq : x = next := by
        rcases List.mem_cons.mp hx with he | hr
        · rw [he] at hvx; omega
        · rcases List.mem_cons.mp hr with he | hr'
          · exact he
          · have h1 := hnext_gt x hr'
            have h2 := hcur_gt next (List.mem_cons_self next rest)
            omega
      rw [hxeq] at hvx
      have hdiff : daysDiff cur next = some 1 := by
        unfold daysDiff
        rw [hps cur (List.mem_cons_self cur (next :: rest)),
          hps next (List.mem_cons_of_mem cur (List.mem_cons_self next rest))]
        show some ((dv cur : ℤ) - (dv next : ℤ)) = some 1
        congr 1
        omega
      show temp + 1 + (k + 1) ≤
        if daysDiff cur next = some 1 then GamificationService.longestFrom next rest longest (temp + 1)
        else GamificationService.longestFrom next rest (max longest (temp + 1)) 0
      rw [if_pos hdiff]
      have hrun' : ∀ i : ℕ, 1 ≤ i → i ≤ k → ∃ x ∈ next :: rest, dv x + i = dv next := by
        intro i h1 h2
        obtain ⟨y, hy, hvy⟩ := hrun (i + 1) (by omega) (by omega)
        have hyne : y ≠ cur := by
          intro he
          rw [he] at hvy
          omega
        refine ⟨y, ?_, by omega⟩
        rcases List.mem_cons.mp hy with he | hr
        · exact absurd he hyne
        · exact hr
      have := ih next longest (temp + 1) k hpw'
        (fun x hx => hps x (List.mem_cons_of_mem cur hx)) hrun'
      omega

/-- Inner run lemma: a run of `k` consecutive values located strictly inside
the remaining list still forces a count of at least `k`. -/
theorem longestFrom_inner (rest : List String) : ∀ (cur : String) (longest temp v k : ℕ),
    (cur :: rest).Pairwise (fun a b => dv b < dv a) →
    (∀ x ∈ cur :: rest, parseDate x = some (dv x)) →
    1 ≤ k →
    (∀ i : ℕ, i < k → ∃ x ∈ rest, dv x + i = v) →
    k ≤ GamificationService.longestFrom cur rest longest temp := by
  induction rest with
  | nil =>
    intro cur longest temp v k hpw hps hk hrun
    obtain ⟨x, hx, _⟩ := hrun 0 (by omega)
    exact absurd hx (List.not_mem_nil x)
  | cons next rest ih =>
    intro cur longest temp v k hpw hps hk hrun
    rw [List.pairwise_cons] at hpw
    obtain ⟨hcur_gt, hpw'⟩ := hpw
    have hnext_gt := (List.pairwise_cons.mp hpw').1
    have hps' : ∀ x ∈ next :: rest, parseDate x = some (dv x) := fun x hx =>
      hps x (List.mem_cons_of_mem cur hx)
    by_cases hv : dv next = v
    · have hrun' : ∀ i : ℕ, 1 ≤ i → i ≤ k - 1 → ∃ x ∈ next :: rest, dv x + i = dv next := by
        intro i h1 h2
        obtain ⟨x, hx, hvx⟩ := hrun i (by omega)
        exact ⟨x, hx, by omega⟩
      show k ≤ if daysDiff cur next = some 1 then GamificationService.longestFrom next rest longest (temp + 1)
        else GamificationService.longestFrom next rest (max longest (temp + 1)) 0
      split
      · have := longestFrom_run rest next longest (temp + 1) (k - 1) hpw' hps' hrun'
        omega
      · have := longestFrom_run rest next (max longest (temp + 1)) 0 (k - 1) hpw' hps' hrun'
        omega
    · have hvlt : v < dv next := by
        obtain ⟨x, hx, hvx⟩ := hrun 0 (by omega)
        rcases List.mem_cons.mp hx with he | hr
        · rw [he] at hvx
          omega
        · have := hnext_gt x hr
          omega
      have hrun' : ∀ i : ℕ, i < k → ∃ x ∈ rest, dv x + i = v := by
        intro i hi
        obtain ⟨x, hx, hvx⟩ := hrun i hi
        rcases List.mem_cons.mp hx with he | hr
        · rw [he] at hvx
          omega
        · exact ⟨x, hr, hvx⟩
      show k ≤ if daysDiff cur next = some 1 then GamificationService.longestFrom next rest longest (temp + 1)
        else GamificationService.longestFrom next rest (max longest (temp + 1)) 0
      split
      · exact ih next longest (temp + 1) v k hpw' hps' hk hrun'
      · exact ih next (max longest (temp + 1)) 0 v k hpw' hps' hk hrun'

/-- The longest-streak loop counts any run of `k` consecutive day values
present in a strictly descending list of parseable dates. -/
theorem longestLoop_ge_run (L : List String) (v k : ℕ)
    (hpw : L.Pairwise (fun a b => dv b < dv a))
    (hps : ∀ x ∈ L, parseDate x = some (dv x))
    (hk : 1 ≤ k)
    (hrun : ∀ i : ℕ, i < k → ∃ x ∈ L, dv x + i = v) :
    k ≤ GamificationService.longestLoop L := by
  cases L with
  | nil =>
    obtain ⟨x, hx, _⟩ := hrun 0 (by omega)
    exact absurd hx (List.not_mem_nil x)
  | cons a rest =>
    show k ≤ GamificationService.longestFrom a rest 0 0
    by_cases hv : dv a = v
    · have hrun' : ∀ i : ℕ, 1 ≤ i → i ≤ k - 1 → ∃ x ∈ a :: rest, dv x + i = dv a := by
        intro i h1 h2
        obtain ⟨x, hx, hvx⟩ := hrun i (by omega)
        exact ⟨x, hx, by omega⟩
      have := longestFrom_run rest a 0 0 (k - 1) hpw hps hrun'
      omega
    · have hnext_gt := (List.pairwise_cons.mp hpw).1
      have hvlt : v < dv a := by
        obtain ⟨x, hx, hvx⟩ := hrun 0 (by omega)
        rcases List.mem_cons.mp hx with he | hr
        · rw [he] at hvx
          omega
        · have := hnext_gt x hr
          omega
      have hrun' : ∀ i : ℕ, i < k → ∃ x ∈ rest, dv x + i = v := by
        intro i hi
        obtain ⟨x, hx, hvx⟩ := hrun i hi
        rcases List.mem_cons.mp hx with he | hr
        · rw [he] at hvx
          omega
        · exact ⟨x, hr, hvx⟩
      exact longestFrom_inner rest a 0 0 v k hpw hps hk hrun'

/-- Every day counted by the current-streak loop has a logged entry. -/
theorem currentLoop_hasLog (sortedData : List HealthEntrySchema) (fuel : ℕ) :
    ∀ d : ℤ, ∀ i : ℕ, i < GamificationService.currentLoop sortedData d fuel →
      GamificationService.hasLog sortedData (d - (i : ℤ)) = true := by
  induction fuel with
  | zero =>
    intro d i h
    rw [show GamificationService.currentLoop sortedData d 0 = 0 from rfl] at h
    omega
  | succ fuel ih =>
    intro d i h
    rw [show GamificationService.currentLoop sortedData d (fuel + 1) =
      if GamificationService.hasLog sortedData d then GamificationService.currentLoop sortedData (d - 1) fuel + 1 else 0 from rfl] at h
    by_cases hl : GamificationService.hasLog sortedData d = true
    · rw [if_pos hl] at h
      cases i with
      | zero =>
        have he : d - ((0 : ℕ) : ℤ) = d := by simp
        rw [he]
        exact hl
      | succ j =>
        have := ih (d - 1) j (by omega)
        have he : d - 1 - (j : ℤ) = d - ((j + 1 : ℕ) : ℤ) := by push_cast; ring
        rw [he] at this
        exact this
    · rw [if_neg hl] at h
      omega

/-- C10: for every entry list whose date fields are all well-formed
`YYYY-MM-DD` calendar dates, the streak calculation returns
`longestStreak ≥ currentStreak`, and for a non-empty list `longestStreak ≥ 1`. -/
theorem c10_streak_invariants (today : ℤ) (entries : List HealthEntrySchema)
    (hwf : ∀ e ∈ entries, wellFormedDate e.date = true) :
    (GamificationService.calculateStreaks today entries).currentStreak ≤
      (GamificationService.calculateStreaks today entries).longestStreak ∧
    (entries ≠ [] →
      1 ≤ (GamificationService.calculateStreaks today entries).longestStreak) := by
  by_cases hemp : entries = []
  · constructor
    · subst hemp
      simp [GamificationService.calculateStreaks]
    · intro h
      exact absurd hemp h
  · have hmsperm := List.mergeSort_perm entries dateDescLe
    have hSDne : entries.mergeSort dateDescLe ≠ [] := by
      intro h
      rw [h] at hmsperm
      exact hemp hmsperm.symm.eq_nil
    have hie : (entries.mergeSort dateDescLe).isEmpty = false := by
      cases hms : entries.mergeSort dateDescLe with
      | nil => exact absurd hms hSDne
      | cons a l => rfl
    have hCS : GamificationService.calculateStreaks today entries =
        { currentStreak :=
            GamificationService.currentLoop (entries.mergeSort dateDescLe) today 365,
          longestStreak := GamificationService.longestLoop
            ((((entries.mergeSort dateDescLe).map fun e => e.date).dedup).mergeSort strDescLe),
          lastLogDate := GamificationService.headDate (entries.mergeSort dateDescLe),
          streakType := "daily" } := by
      simp only [GamificationService.calculateStreaks]
      rw [if_neg (by rw [hie]; exact Bool.false_ne_true)]
    rw [hCS]
    show GamificationService.currentLoop (entries.mergeSort dateDescLe) today 365 ≤
        GamificationService.longestLoop
          ((((entries.mergeSort dateDescLe).map fun e => e.date).dedup).mergeSort strDescLe) ∧
      (entries ≠ [] →
        1 ≤ GamificationService.longestLoop
          ((((entries.mergeSort dateDescLe).map fun e => e.date).dedup).mergeSort strDescLe))
    set SD := entries.mergeSort dateDescLe with hSDdef
    set DL := ((SD.map fun e => e.date).dedup).mergeSort strDescLe with hDLdef
    have hmemSD : ∀ e, e ∈ SD ↔ e ∈ entries := fun e => hmsperm.mem_iff
    have hmemDL : ∀ s, s ∈ DL ↔ s ∈ SD.map fun e => e.date := fun s =>
      (List.mergeSort_perm _ strDescLe).mem_iff.trans List.mem_dedup
    have hwfDL : ∀ s ∈ DL, wellFormedDate s = true := by
      intro s hs
      rw [hmemDL, List.mem_map] at hs
      obtain ⟨e, he, hes⟩ := hs
      rw [← hes]
      exact hwf e ((hmemSD e).mp he)
    have hpsDL : ∀ s ∈ DL, parseDate s = some (dv s) := fun s hs => parseDate_dv s (hwfDL s hs)
    have htrans : ∀ a b c : String,
        strDescLe a b = true → strDescLe b c = true → strDescLe a c = true := by
      intro a b c h1 h2
      simp only [strDescLe, decide_eq_true_eq] at h1 h2 ⊢
      omega
    have htot : ∀ a b : String, (strDescLe a b || strDescLe b a) = true := by
      intro a b
      simp only [strDescLe, Bool.or_eq_true, decide_eq_true_eq]
      omega
    have hsorted : DL.Pairwise (fun a b => strDescLe a b = true) :=
      List.sorted_mergeSort htrans htot _
    have hnodup : DL.Nodup := (List.mergeSort_perm _ strDescLe).nodup_iff.mpr (List.nodup_dedup _)
    have hpw : DL.Pairwise (fun a b => dv b < dv a) := by
      refine (hsorted.and hnodup).imp_of_mem ?_
      intro a b ha hb hr
      obtain ⟨hle, hne⟩ := hr
      simp only [strDescLe, decide_eq_true_eq] at hle
      rcases Nat.lt_or_ge (dv b) (dv a) with h | h
      · exact h
      · have heq : dv a = dv b := by omega
        exact absurd (parseDate_inj a b (hwfDL a ha) (hwfDL b hb) heq) hne
    constructor
    · cases hk : GamificationService.currentLoop SD today 365 with
      | zero => exact Nat.zero_le _
      | succ kk =>
        have hrun : ∀ i : ℕ, i < kk + 1 → ∃ x ∈ DL, dv x + i = today.toNat := by
          intro i hi
          have hhl := currentLoop_hasLog SD 365 today i (by rw [hk]; omega)
          unfold GamificationService.hasLog at hhl
          rw [List.any_eq_true] at hhl
          obtain ⟨e, he, hbeq⟩ := hhl
          have hdate : e.date = formatDate (today - (i : ℤ)) := eq_of_beq hbeq
          have hwe : wellFormedDate (formatDate (today - (i : ℤ))) = true := by
            rw [← hdate]
            exact hwf e ((hmemSD e).mp he)
          obtain ⟨hpos, hy⟩ := wellFormedDate_formatDate _ hwe
          have hcast : (((today - (i : ℤ)).toNat : ℕ) : ℤ) = today - (i : ℤ) :=
            Int.toNat_of_nonneg hpos
          have hparse := parseDate_formatDate ((today - (i : ℤ)).toNat) hy
          rw [hcast] at hparse
          refine ⟨e.date, ?_, ?_⟩
          · rw [hmemDL, List.mem_map]
            exact ⟨e, he, rfl⟩
          · rw [hdate]
            unfold dv
            rw [hparse]
            simp only [Option.getD_some]
            omega
        exact longestLoop_ge_run DL today.toNat (kk + 1) hpw hpsDL (by omega) hrun
    · intro _
      obtain ⟨e, he⟩ := List.exists_mem_of_ne_nil entries hemp
      have hmem : e.date ∈ DL := by
        rw [hmemDL, List.mem_map]
        exact ⟨e, (hmemSD e).mpr he, rfl⟩
      cases hDL : DL with
      | nil =>
        rw [hDL] at hmem
        exact absurd hmem (List.not_mem_nil _)
      | cons d r =>
        show 1 ≤ GamificationService.longestFrom d r 0 0
        have := longestFrom_ge_temp r d 0 0
        omega

/-- Witness for C10 at a concrete entry list and date. -/
theorem c10_streak_invariants_witness :
    (∀ e ∈ exStreakEntries, wellFormedDate e.date = true) ∧
    ((GamificationService.calculateStreaks 1836 exStreakEntries).currentStreak ≤
        (GamificationService.calculateStreaks 1836 exStreakEntries).longestStreak ∧
      (exStreakEntries ≠ [] →
        1 ≤ (GamificationService.calculateStreaks 1836 exStreakEntries).longestStreak)) :=
  ⟨by decide, c10_streak_invariants 1836 exStreakEntries (by decide)⟩
